import Mathlib

/-!
# Verification of the telegram-news repository

Shallow embedding of the core data model and operations of the
`telegram-news` repository (`run_bot.py`, `admin_bot.py`, and the vendored
`telegram_news` package) in Lean 4, together with theorems settling the
specification claims about deduplication, event alerts, fan-out,
configuration toggling and error handling.

Python strings are modelled as `List Char` (sequences of Unicode code
points), bytes as `Nat` values below 256, and 32-bit machine words as `Nat`
values reduced modulo `2 ^ 32`.  External library calls (HTTP requests, the
translator, `strptime`) are modelled as explicit function parameters, with
`Except`/`Option` results standing for calls that may raise.
-/

set_option maxHeartbeats 1000000
set_option maxRecDepth 10000

/-! ## MD5 (as used by `hashlib.md5` in `safe_id_policy`)

A direct embedding of the MD5 algorithm over `Nat` with explicit reduction
modulo `2 ^ 32`, operating on byte lists. -/

namespace MD5

/-- The 64 per-round additive constants of MD5. -/
def kTable : List Nat :=
  [0xd76aa478, 0xe8c7b756, 0x242070db, 0xc1bdceee,
   0xf57c0faf, 0x4787c62a, 0xa8304613, 0xfd469501,
   0x698098d8, 0x8b44f7af, 0xffff5bb1, 0x895cd7be,
   0x6b901122, 0xfd987193, 0xa679438e, 0x49b40821,
   0xf61e2562, 0xc040b340, 0x265e5a51, 0xe9b6c7aa,
   0xd62f105d, 0x02441453, 0xd8a1e681, 0xe7d3fbc8,
   0x21e1cde6, 0xc33707d6, 0xf4d50d87, 0x455a14ed,
   0xa9e3e905, 0xfcefa3f8, 0x676f02d9, 0x8d2a4c8a,
   0xfffa3942, 0x8771f681, 0x6d9d6122, 0xfde5380c,
   0xa4beea44, 0x4bdecfa9, 0xf6bb4b60, 0xbebfbc70,
   0x289b7ec6, 0xeaa127fa, 0xd4ef3085, 0x04881d05,
   0xd9d4d039, 0xe6db99e5, 0x1fa27cf8, 0xc4ac5665,
   0xf4292244, 0x432aff97, 0xab9423a7, 0xfc93a039,
   0x655b59c3, 0x8f0ccc92, 0xffeff47d, 0x85845dd1,
   0x6fa87e4f, 0xfe2ce6e0, 0xa3014314, 0x4e0811a1,
   0xf7537e82, 0xbd3af235, 0x2ad7d2bb, 0xeb86d391]

/-- The 64 per-round left-rotation amounts of MD5. -/
def sTable : List Nat :=
  [7, 12, 17, 22, 7, 12, 17, 22, 7, 12, 17, 22, 7, 12, 17, 22,
   5,  9, 14, 20, 5,  9, 14, 20, 5,  9, 14, 20, 5,  9, 14, 20,
   4, 11, 16, 23, 4, 11, 16, 23, 4, 11, 16, 23, 4, 11, 16, 23,
   6, 10, 15, 21, 6, 10, 15, 21, 6, 10, 15, 21, 6, 10, 15, 21]

/-- Left rotation of a 32-bit word represented as a `Nat` below `2 ^ 32`. -/
def rotl (x s : Nat) : Nat :=
  (x % 2 ^ (32 - s)) * 2 ^ s + x / 2 ^ (32 - s)

/-- `n` bytes of `v` in little-endian order. -/
def toBytesLE : Nat → Nat → List Nat
  | 0, _ => []
  | n + 1, v => (v % 256) :: toBytesLE n (v / 256)

/-- MD5 padding: append `0x80`, zero bytes up to 56 mod 64, then the bit
length as 8 little-endian bytes. -/
def padMessage (msg : List Nat) : List Nat :=
  let len := msg.length
  let z := (120 - (len + 1) % 64) % 64
  msg ++ [0x80] ++ List.replicate z 0 ++ toBytesLE 8 ((len * 8) % 2 ^ 64)

/-- Split a byte list into 64-byte chunks (structural recursion on a fuel
bound by the length, so that the kernel can evaluate it). -/
def chunksAux : Nat → List Nat → List (List Nat)
  | 0, _ => []
  | fuel + 1, l => if l = [] then [] else l.take 64 :: chunksAux fuel (l.drop 64)

/-- Split a byte list into 64-byte chunks. -/
def chunks64 (l : List Nat) : List (List Nat) :=
  chunksAux l.length l

/-- Running state of the MD5 compression function. -/
structure MDState where
  a : Nat
  b : Nat
  c : Nat
  d : Nat
deriving DecidableEq

/-- Initial MD5 state. -/
def initState : MDState :=
  ⟨0x67452301, 0xefcdab89, 0x98badcfe, 0x10325476⟩

/-- The `i`-th message word of a 64-byte chunk, little-endian. -/
def wordAt (chunk : List Nat) (i : Nat) : Nat :=
  chunk.getD (4 * i) 0 + chunk.getD (4 * i + 1) 0 * 256 +
  chunk.getD (4 * i + 2) 0 * 65536 + chunk.getD (4 * i + 3) 0 * 16777216

/-- One round of the MD5 compression function. -/
def md5Round (chunk : List Nat) (st : MDState) (i : Nat) : MDState :=
  let b := st.b
  let c := st.c
  let d := st.d
  let f :=
    if i < 16 then (b &&& c) ||| ((b ^^^ 0xffffffff) &&& d)
    else if i < 32 then (d &&& b) ||| ((d ^^^ 0xffffffff) &&& c)
    else if i < 48 then b ^^^ c ^^^ d
    else c ^^^ (b ||| (d ^^^ 0xffffffff))
  let g :=
    if i < 16 then i
    else if i < 32 then (5 * i + 1) % 16
    else if i < 48 then (3 * i + 5) % 16
    else (7 * i) % 16
  let f2 := (f + st.a + kTable.getD i 0 + wordAt chunk g) % 2 ^ 32
  ⟨d, (b + rotl f2 (sTable.getD i 0)) % 2 ^ 32, b, c⟩

/-- Process one 64-byte chunk. -/
def processChunk (st : MDState) (chunk : List Nat) : MDState :=
  let r := (List.range 64).foldl (md5Round chunk) st
  ⟨(st.a + r.a) % 2 ^ 32, (st.b + r.b) % 2 ^ 32,
   (st.c + r.c) % 2 ^ 32, (st.d + r.d) % 2 ^ 32⟩

/-- MD5 digest of a byte list, as the usual 16 bytes. -/
def md5Bytes (msg : List Nat) : List Nat :=
  let st := (chunks64 (padMessage msg)).foldl processChunk initState
  toBytesLE 4 st.a ++ toBytesLE 4 st.b ++ toBytesLE 4 st.c ++ toBytesLE 4 st.d

/-- Lower-case hexadecimal digit for a value below 16. -/
def hexDigit (n : Nat) : Char :=
  if n < 10 then Char.ofNat (48 + n) else Char.ofNat (87 + n)

/-- Two hexadecimal characters of one byte. -/
def byteHex (b : Nat) : List Char :=
  [hexDigit (b / 16), hexDigit (b % 16)]

/-- `hexdigest()` of a byte list. -/
def hexdigest (bytes : List Nat) : List Char :=
  (bytes.map byteHex).flatten

end MD5

/-- UTF-8 encoding of a single code point, as Python's `str.encode('utf-8')`
produces it. -/
def utf8Char (c : Char) : List Nat :=
  let n := c.toNat
  if n < 128 then [n]
  else if n < 2048 then [192 + n / 64, 128 + n % 64]
  else if n < 65536 then [224 + n / 4096, 128 + (n / 64) % 64, 128 + n % 64]
  else [240 + n / 262144, 128 + (n / 4096) % 64, 128 + (n / 64) % 64, 128 + n % 64]

/-- UTF-8 encoding of a Python string (`link.encode('utf-8')`). -/
def utf8Encode (s : List Char) : List Nat :=
  (s.map utf8Char).flatten

namespace RunBot

/-- `safe_id_policy` from `run_bot.py`:
`hashlib.md5(link.encode('utf-8')).hexdigest()[:10]`. -/
def safe_id_policy (link : List Char) : List Char :=
  (MD5.hexdigest (MD5.md5Bytes (utf8Encode link))).take 10

end RunBot

namespace AdminBot

/-- `safe_id_policy` from `admin_bot.py`:
`hashlib.md5(link.encode('utf-8')).hexdigest()[:10]`. -/
def safe_id_policy (link : List Char) : List Char :=
  (MD5.hexdigest (MD5.md5Bytes (utf8Encode link))).take 10

end AdminBot

/-! ## Python `datetime` values

A `datetime` is modelled as an absolute day number plus in-day fields.
`timedelta(days=1)` adds one to the day number, `timedelta(hours=1)` adds an
hour with carry, and `replace(hour=h, minute=m)` overwrites only those two
fields — in particular it keeps the seconds and microseconds, exactly as
Python's `datetime.replace` does. -/

structure PyDateTime where
  day : Nat
  hour : Nat
  minute : Nat
  second : Nat
  micro : Nat
deriving DecidableEq

namespace PyDateTime

/-- Total microseconds; Python's `datetime` comparison agrees with comparing
these for field values in their calendar ranges. -/
def toMicros (t : PyDateTime) : Nat :=
  (((t.day * 24 + t.hour) * 60 + t.minute) * 60 + t.second) * 1000000 + t.micro

/-- `datetime` order (`<=`). -/
def le (a b : PyDateTime) : Bool :=
  a.toMicros ≤ b.toMicros

/-- `t + timedelta(days=n)`. -/
def addDays (t : PyDateTime) (n : Nat) : PyDateTime :=
  { t with day := t.day + n }

/-- `t + timedelta(hours=n)`. -/
def addHours (t : PyDateTime) (n : Nat) : PyDateTime :=
  { t with day := t.day + (t.hour + n) / 24, hour := (t.hour + n) % 24 }

/-- `t.replace(hour=h, minute=m)` — seconds and microseconds are kept. -/
def replaceHM (t : PyDateTime) (h m : Nat) : PyDateTime :=
  { t with hour := h, minute := m }

end PyDateTime

/-! ## `CryptoEvent` rows and the event-alert pass (`admin_bot.py`) -/

/-- A row of the `crypto_events` table. -/
structure CryptoEvent where
  id : Nat
  title : List Char
  date_event : PyDateTime
  end_date : Option PyDateTime
  category : List Char
  coin : Option (List Char)
  location : Option (List Char)
  importance : Nat
  source : List Char
  source_url : Option (List Char)
  alert_sent : Bool
  alert_1day_sent : Bool
  alert_1hour_sent : Bool
deriving DecidableEq

/-- The `calendar` section of the configuration as read by
`check_and_send_event_alerts`; each field models
`cal_config.get(key, True)`. -/
structure CalCfg where
  alerts_enabled : Bool
  alert_1day : Bool
  alert_1hour : Bool
  alert_conferences : Bool
  alert_speeches : Bool
  alert_launches : Bool
deriving DecidableEq

/-- The two timed alert windows. -/
inductive AlertKind where
  | day1
  | hour1
deriving DecidableEq

/-- The lower bound of the 1-day query:
`tomorrow.replace(hour=0, minute=0)` with `tomorrow = now + timedelta(days=1)`. -/
def lower1day (now : PyDateTime) : PyDateTime :=
  (now.addDays 1).replaceHM 0 0

/-- The upper bound of the 1-day query:
`tomorrow.replace(hour=23, minute=59)`. -/
def upper1day (now : PyDateTime) : PyDateTime :=
  (now.addDays 1).replaceHM 23 59

/-- The 1-day query filter:
`date_event >= tomorrow.replace(hour=0, minute=0)`,
`date_event <= tomorrow.replace(hour=23, minute=59)`,
`alert_1day_sent == False`. -/
def sel1day (now : PyDateTime) (e : CryptoEvent) : Bool :=
  (lower1day now).le e.date_event && e.date_event.le (upper1day now) &&
    !e.alert_1day_sent

/-- The category filter applied in the 1-day loop (`continue` on a category
whose toggle is off). -/
def catOK (cfg : CalCfg) (e : CryptoEvent) : Bool :=
  !(e.category = "conference".data && !cfg.alert_conferences) &&
  !(e.category = "speech".data && !cfg.alert_speeches) &&
  !(e.category = "launch".data && !cfg.alert_launches)

/-- The 1-hour query filter: `date_event >= now`,
`date_event <= now + timedelta(hours=1)`, `alert_1hour_sent == False`. -/
def sel1hour (now : PyDateTime) (e : CryptoEvent) : Bool :=
  now.le e.date_event && e.date_event.le (now.addHours 1) &&
    !e.alert_1hour_sent

/-- Effect of the 1-day loop on a single row: if the row is selected, passes
the category filter and `send_event_alert` returns `True`, the
`alert_1day_sent` flag is set. -/
def step1day (cfg : CalCfg) (now : PyDateTime) (send : Nat → AlertKind → Bool)
    (e : CryptoEvent) : CryptoEvent :=
  if sel1day now e && catOK cfg e && send e.id AlertKind.day1 then
    { e with alert_1day_sent := true }
  else e

/-- Effect of the 1-hour loop on a single row. -/
def step1hour (now : PyDateTime) (send : Nat → AlertKind → Bool)
    (e : CryptoEvent) : CryptoEvent :=
  if sel1hour now e && send e.id AlertKind.hour1 then
    { e with alert_1hour_sent := true }
  else e

/-- One pass of `check_and_send_event_alerts`.  `send i k` models the Bool
returned by `send_event_alert` for event id `i` and window `k`; the second
component lists the `send_event_alert` invocations of the pass.  The 1-hour
query runs after the 1-day loop has updated the rows it touched. -/
def checkAndSendEventAlerts (cfg : CalCfg) (now : PyDateTime)
    (send : Nat → AlertKind → Bool) (evs : List CryptoEvent) :
    List CryptoEvent × List (Nat × AlertKind) :=
  if !cfg.alerts_enabled then (evs, [])
  else
    let day := if cfg.alert_1day then
        (evs.map (step1day cfg now send),
         (evs.filter (fun e => sel1day now e && catOK cfg e)).map
           (fun e => (e.id, AlertKind.day1)))
      else (evs, [])
    let hour := if cfg.alert_1hour then
        (day.1.map (step1hour now send),
         (day.1.filter (fun e => sel1hour now e)).map
           (fun e => (e.id, AlertKind.hour1)))
      else (day.1, [])
    (hour.1, day.2 ++ hour.2)

/-- Parameters of one pass of the hourly `run_event_alerts` loop. -/
structure PassIn where
  cfg : CalCfg
  now : PyDateTime
  send : Nat → AlertKind → Bool

/-- One pass applied to the running state of a pass sequence. -/
def passFold (st : List CryptoEvent × List (Nat × AlertKind)) (p : PassIn) :
    List CryptoEvent × List (Nat × AlertKind) :=
  let r := checkAndSendEventAlerts p.cfg p.now p.send st.1
  (r.1, st.2 ++ r.2)

/-- A sequence of passes of the alert checker, accumulating all
`send_event_alert` invocations. -/
def runAlertPasses (ps : List PassIn) (evs : List CryptoEvent) :
    List CryptoEvent × List (Nat × AlertKind) :=
  ps.foldl passFold (evs, [])

/-- The flag of event row `e` for window `k`. -/
def flagW (k : AlertKind) (e : CryptoEvent) : Bool :=
  match k with
  | AlertKind.day1 => e.alert_1day_sent
  | AlertKind.hour1 => e.alert_1hour_sent

/-- The flag of the event with id `i` in table `evs` for window `k`. -/
def flagOf (evs : List CryptoEvent) (i : Nat) (k : AlertKind) : Option Bool :=
  (evs.find? (fun e => e.id == i)).map (flagW k)

/-! ## `fetch_and_save_events` (`admin_bot.py`)

`strptime` with the fixed format `"%Y-%m-%d"` is modelled as an explicit
parameter `pd`; the multi-format parse attempted on scraped dates is the
parameter `pd2` (`none` models all formats failing). -/

/-- One entry of the `CRYPTO_EVENTS_2026` literal (a Python dict). -/
structure EventData where
  title : List Char
  date : List Char
  endD : Option (List Char)
  category : List Char
  coin : Option (List Char)
  location : Option (List Char)
  importance : Nat
  url : Option (List Char)
deriving DecidableEq

/-- Python falsiness of an optional string (`None` or `""`). -/
def optFalsy : Option (List Char) → Bool
  | none => true
  | some s => s.isEmpty

/-- The pre-loaded 2026 events of `admin_bot.py` (`CRYPTO_EVENTS_2026`). -/
def CRYPTO_EVENTS_2026 : List EventData :=
  [⟨"ETHDenver 2026".data, "2026-02-24".data, some "2026-03-02".data,
    "conference".data, none, some "Denver, EUA".data, 9,
    some "https://www.ethdenver.com/".data⟩,
   ⟨"Bitcoin 2026 Conference".data, "2026-05-15".data, some "2026-05-17".data,
    "conference".data, none, some "Nashville, EUA".data, 10,
    some "https://b.tc/conference".data⟩,
   ⟨"Consensus 2026 (CoinDesk)".data, "2026-05-26".data, some "2026-05-28".data,
    "conference".data, none, some "Miami, EUA".data, 10,
    some "https://consensus.coindesk.com/".data⟩,
   ⟨"Web Summit Rio 2026".data, "2026-06-15".data, some "2026-06-18".data,
    "conference".data, none, some "Rio de Janeiro, Brasil".data, 8,
    some "https://rio.websummit.com/".data⟩,
   ⟨"Paris Blockchain Week 2026".data, "2026-04-07".data, some "2026-04-11".data,
    "conference".data, none, some "Paris, França".data, 9,
    some "https://www.parisblockchainweek.com/".data⟩,
   ⟨"Token2049 Singapore".data, "2026-09-14".data, some "2026-09-15".data,
    "conference".data, none, some "Singapura".data, 9,
    some "https://www.token2049.com/".data⟩,
   ⟨"Token2049 Dubai".data, "2026-04-28".data, some "2026-04-29".data,
    "conference".data, none, some "Dubai, UAE".data, 9,
    some "https://www.token2049.com/".data⟩,
   ⟨"Blockchain Rio 2026".data, "2026-08-10".data, some "2026-08-12".data,
    "conference".data, none, some "Rio de Janeiro, Brasil".data, 8,
    some "https://www.blockchainrio.com.br/".data⟩,
   ⟨"Gramado Summit 2026".data, "2026-09-20".data, some "2026-09-22".data,
    "conference".data, none, some "Gramado, Brasil".data, 7,
    some "https://gramadosummit.com/".data⟩,
   ⟨"Blockchain Life 2026".data, "2026-12-08".data, some "2026-12-10".data,
    "conference".data, none, some "Dubai, UAE".data, 9,
    some "https://blockchain-life.com/".data⟩,
   ⟨"Consensus Hong Kong 2026".data, "2026-11-10".data, some "2026-11-12".data,
    "conference".data, none, some "Hong Kong".data, 9,
    some "https://consensus-hongkong.coindesk.com/".data⟩,
   ⟨"NFT.NYC 2026".data, "2026-04-15".data, some "2026-04-17".data,
    "conference".data, none, some "New York, EUA".data, 8,
    some "https://www.nft.nyc/".data⟩,
   ⟨"Devcon 2026".data, "2026-10-20".data, some "2026-10-23".data,
    "conference".data, none, some "TBA".data, 10,
    some "https://devcon.org/".data⟩,
   ⟨"FOMC Meeting - Fed (Janeiro)".data, "2026-01-28".data, none,
    "speech".data, some "BTC".data, some "Washington, EUA".data, 10,
    some "https://www.federalreserve.gov/monetarypolicy/fomccalendars.htm".data⟩,
   ⟨"FOMC Meeting - Fed (Março)".data, "2026-03-18".data, none,
    "speech".data, some "BTC".data, some "Washington, EUA".data, 10,
    some "https://www.federalreserve.gov/monetarypolicy/fomccalendars.htm".data⟩,
   ⟨"FOMC Meeting - Fed (Maio)".data, "2026-05-06".data, none,
    "speech".data, some "BTC".data, some "Washington, EUA".data, 10,
    some "https://www.federalreserve.gov/monetarypolicy/fomccalendars.htm".data⟩,
   ⟨"FOMC Meeting - Fed (Junho)".data, "2026-06-17".data, none,
    "speech".data, some "BTC".data, some "Washington, EUA".data, 10,
    some "https://www.federalreserve.gov/monetarypolicy/fomccalendars.htm".data⟩,
   ⟨"FOMC Meeting - Fed (Julho)".data, "2026-07-29".data, none,
    "speech".data, some "BTC".data, some "Washington, EUA".data, 10,
    some "https://www.federalreserve.gov/monetarypolicy/fomccalendars.htm".data⟩,
   ⟨"FOMC Meeting - Fed (Setembro)".data, "2026-09-16".data, none,
    "speech".data, some "BTC".data, some "Washington, EUA".data, 10,
    some "https://www.federalreserve.gov/monetarypolicy/fomccalendars.htm".data⟩,
   ⟨"FOMC Meeting - Fed (Novembro)".data, "2026-11-04".data, none,
    "speech".data, some "BTC".data, some "Washington, EUA".data, 10,
    some "https://www.federalreserve.gov/monetarypolicy/fomccalendars.htm".data⟩,
   ⟨"FOMC Meeting - Fed (Dezembro)".data, "2026-12-16".data, none,
    "speech".data, some "BTC".data, some "Washington, EUA".data, 10,
    some "https://www.federalreserve.gov/monetarypolicy/fomccalendars.htm".data⟩,
   ⟨"Jackson Hole Symposium".data, "2026-08-27".data, some "2026-08-29".data,
    "speech".data, some "BTC".data, some "Wyoming, EUA".data, 10,
    some "https://www.kansascityfed.org/research/jackson-hole-economic-symposium/".data⟩,
   ⟨"World Economic Forum Davos".data, "2026-01-19".data, some "2026-01-23".data,
    "speech".data, none, some "Davos, Suíça".data, 9,
    some "https://www.weforum.org/events/world-economic-forum-annual-meeting-2026/".data⟩,
   ⟨"G20 Summit 2026".data, "2026-11-21".data, some "2026-11-22".data,
    "speech".data, none, some "África do Sul".data, 9,
    some "https://www.g20.org/".data⟩,
   ⟨"Ethereum Pectra Upgrade".data, "2026-03-15".data, none,
    "launch".data, some "ETH".data, none, 10,
    some "https://ethereum.org/en/roadmap/".data⟩,
   ⟨"Bitcoin Halving Cycle Analysis".data, "2026-04-15".data, none,
    "launch".data, some "BTC".data, none, 8,
    some "https://www.bitcoinblockhalf.com/".data⟩]

/-- The duplicate check of the pre-loaded loop: same `title` and same
`date_event` (`strptime(date, "%Y-%m-%d")`). -/
def matchesPre (pd : List Char → PyDateTime) (d : EventData)
    (e : CryptoEvent) : Bool :=
  decide (e.title = d.title ∧ e.date_event = pd d.date)

/-- The `CryptoEvent` row inserted for a pre-loaded entry. -/
def mkPreEvent (pd : List Char → PyDateTime) (d : EventData) : CryptoEvent :=
  { id := 0, title := d.title, date_event := pd d.date,
    end_date := if optFalsy d.endD then none else some (pd (d.endD.getD d.date)),
    category := d.category, coin := d.coin, location := d.location,
    importance := d.importance, source := "manual".data, source_url := d.url,
    alert_sent := false, alert_1day_sent := false, alert_1hour_sent := false }

/-- `query(...).first()` followed by the conditional URL update: set
`source_url` on the first matching row when it is falsy and the entry has a
URL. -/
def updFirstUrl (pd : List Char → PyDateTime) (d : EventData) :
    List CryptoEvent → List CryptoEvent
  | [] => []
  | e :: rest =>
    if matchesPre pd d e then
      (if optFalsy e.source_url && !optFalsy d.url then
        { e with source_url := d.url } else e) :: rest
    else e :: updFirstUrl pd d rest

/-- One iteration of the pre-loaded-events loop of `fetch_and_save_events`:
skip (possibly updating the URL) when a matching row exists, else insert a
new row and count it as saved. -/
def stepPre (pd : List Char → PyDateTime) (st : List CryptoEvent × Nat)
    (d : EventData) : List CryptoEvent × Nat :=
  if st.1.any (matchesPre pd d) then (updFirstUrl pd d st.1, st.2)
  else (st.1 ++ [mkPreEvent pd d], st.2 + 1)

/-- One scraped CoinMarketCal event dict. -/
structure ScrapedData where
  title : List Char
  date_str : List Char
  coin : List Char
  category : List Char
deriving DecidableEq

/-- The duplicate check of the scraped loop: same `title` and
`source == "coinmarketcal"`. -/
def matchesScr (d : ScrapedData) (e : CryptoEvent) : Bool :=
  decide (e.title = d.title ∧ e.source = "coinmarketcal".data)

/-- The `CryptoEvent` row inserted for a scraped event. -/
def mkScrEvent (dateV : PyDateTime) (d : ScrapedData) : CryptoEvent :=
  { id := 0, title := d.title, date_event := dateV, end_date := none,
    category := d.category, coin := some d.coin, location := none,
    importance := 5, source := "coinmarketcal".data, source_url := none,
    alert_sent := false, alert_1day_sent := false, alert_1hour_sent := false }

/-- One iteration of the scraped-events loop; `pd2` models the multi-format
date parse, with `now + timedelta(days=30)` as the default. -/
def stepScr (pd2 : List Char → Option PyDateTime) (now : PyDateTime)
    (st : List CryptoEvent × Nat) (d : ScrapedData) : List CryptoEvent × Nat :=
  let dateV := (pd2 d.date_str).getD (now.addDays 30)
  if st.1.any (matchesScr d) then st
  else (st.1 ++ [mkScrEvent dateV d], st.2 + 1)

/-- `fetch_and_save_events`: load the pre-defined 2026 events, then the
scraped events, returning the new table and the number of newly saved
rows. -/
def fetch_and_save_events (pd : List Char → PyDateTime)
    (pd2 : List Char → Option PyDateTime) (now : PyDateTime)
    (scraped : List ScrapedData) (db : List CryptoEvent) :
    List CryptoEvent × Nat :=
  let st1 := CRYPTO_EVENTS_2026.foldl (stepPre pd) (db, 0)
  scraped.foldl (stepScr pd2 now) st1

/-! ## `ConfigManager.toggle` and the configuration value (`admin_bot.py`) -/

/-- A Python value stored in the configuration dict. -/
inductive PyVal where
  | vBool : Bool → PyVal
  | vInt : Int → PyVal
  | vStr : List Char → PyVal
deriving DecidableEq

/-- Python truthiness of a configuration value. -/
def pyTruthy : PyVal → Bool
  | PyVal.vBool b => b
  | PyVal.vInt n => decide (n ≠ 0)
  | PyVal.vStr s => !s.isEmpty

/-- Python's `not` applied to a configuration value. -/
def pyNot (v : PyVal) : PyVal :=
  PyVal.vBool (!pyTruthy v)

/-- A top-level entry of the configuration: either a nested dict (a
"section") or a scalar (such as `language` or `cycle_interval`). -/
inductive PySection where
  | sDict : List (List Char × PyVal) → PySection
  | sVal : PyVal → PySection
deriving DecidableEq

/-- The whole configuration dict. -/
abbrev Config : Type := List (List Char × PySection)

/-- Dict lookup (`k in d` / `d[k]`): first entry with the given key. -/
def dictGet {α : Type} (d : List (List Char × α)) (k : List Char) : Option α :=
  (d.find? (fun p => p.1 == k)).map (fun p => p.2)

/-- Dict assignment to an existing key (`d[k] = v`): replace the value at
the first entry with that key, preserving insertion order, as Python dicts
(whose keys are unique) do. -/
def dictSet {α : Type} : List (List Char × α) → List Char → α →
    List (List Char × α)
  | [], _, _ => []
  | p :: rest, k, v =>
    if p.1 == k then (p.1, v) :: rest else p :: dictSet rest k v

/-- Substring test, as Python's `key in some_string`. -/
def isSubstrB (p : List Char) : List Char → Bool
  | [] => p.isEmpty
  | c :: rest => p.isPrefixOf (c :: rest) || isSubstrB p rest

/-- `ConfigManager.toggle(section, key)`: when the section is a dict holding
the key, replace its value by the Python negation and save; when the section
or key is missing, leave the configuration unchanged.  `none` models the
`TypeError` Python raises when the section's value is a scalar and
`config[section][key] = ...` (or `key in config[section]` for a non-string)
is attempted. -/
def ConfigManager_toggle (config : Config) (sect key : List Char) :
    Option Config :=
  match dictGet config sect with
  | none => some config
  | some (PySection.sDict d) =>
    match dictGet d key with
    | none => some config
    | some v =>
      some (dictSet config sect (PySection.sDict (dictSet d key (pyNot v))))
  | some (PySection.sVal (PyVal.vStr s)) =>
    if isSubstrB key s then none else some config
  | some (PySection.sVal _) => none

/-- `DEFAULT_CONFIG` from `admin_bot.py`. -/
def DEFAULT_CONFIG : Config :=
  [("sources_enabled".data, PySection.sDict
     [("coindesk".data, PyVal.vBool true),
      ("cointelegraph".data, PyVal.vBool true),
      ("decrypt".data, PyVal.vBool true),
      ("bitcoinmagazine".data, PyVal.vBool true),
      ("cryptoslate".data, PyVal.vBool true),
      ("utoday".data, PyVal.vBool true),
      ("portaldobitcoin".data, PyVal.vBool true),
      ("cointelegraphbr".data, PyVal.vBool true),
      ("criptofacil".data, PyVal.vBool true),
      ("whaletracker".data, PyVal.vBool false),
      ("lookonchain".data, PyVal.vBool false)]),
   ("format".data, PySection.sDict
     [("show_link".data, PyVal.vBool true),
      ("show_image".data, PyVal.vBool true),
      ("show_video".data, PyVal.vBool false),
      ("translate".data, PyVal.vBool true),
      ("summarize".data, PyVal.vBool false),
      ("filter_relevance".data, PyVal.vBool false),
      ("add_emoji".data, PyVal.vBool false),
      ("min_relevance_score".data, PyVal.vInt 5),
      ("style".data, PyVal.vStr "complete".data)]),
   ("themes".data, PySection.sDict
     [("news".data, PyVal.vBool true),
      ("analysis".data, PyVal.vBool true),
      ("onchain".data, PyVal.vBool false),
      ("whale".data, PyVal.vBool false),
      ("liquidation".data, PyVal.vBool false),
      ("exchange".data, PyVal.vBool false)]),
   ("language".data, PySection.sVal (PyVal.vStr "pt".data)),
   ("cycle_interval".data, PySection.sVal (PyVal.vInt 300))]

/-! ## `get_send_list` fan-out destinations (`admin_bot.py`) -/

/-- A row of the `bot_groups` table. -/
structure BotGroup where
  chat_id : List Char
  title : List Char
  topic_id : Option Nat
  topic_name : Option (List Char)
  enabled : Bool
deriving DecidableEq

/-- A fan-out destination dict: chat identifier plus optional sub-topic
identifier.  The chat identifier is optional because the fallback entry can
carry an unset `CHANNEL_ID`. -/
structure Destination where
  chat_id : Option (List Char)
  topic_id : Option Nat
  title : List Char
deriving DecidableEq

/-- The destination built for a group row. -/
def destOfGroup (g : BotGroup) : Destination :=
  ⟨some g.chat_id, g.topic_id, g.title⟩

/-- The main-channel destination. -/
def mainDest (channelId : Option (List Char)) : Destination :=
  ⟨channelId, none, "Canal Principal".data⟩

/-- One iteration of the group loop of `get_send_list`: append the group's
destination unless its `chat_id` is already present. -/
def sendListStep (acc : List Destination) (g : BotGroup) : List Destination :=
  if acc.any (fun d => d.chat_id == some g.chat_id) then acc
  else acc ++ [destOfGroup g]

/-- `get_send_list(db_session)`: the main channel (when `CHANNEL_ID` is
truthy) followed by the enabled groups, deduplicated by `chat_id`, with a
fallback single entry when the list would be empty. -/
def get_send_list (channelId : Option (List Char)) (groups : List BotGroup) :
    List Destination :=
  let init := if optFalsy channelId then [] else [mainDest channelId]
  let l := (groups.filter (fun g => g.enabled)).foldl sendListStep init
  if l.isEmpty then [mainDest channelId] else l

/-! ## The news-fetch cycle (`run_news_fetcher`, `admin_bot.py`)

The per-source work — building the extractor and postman and running
`np._action()` — is a blanket-wrapped external interaction, modelled by the
oracle `fetch`; a `.error` result models any exception it raises. -/

/-- The keys of the built-in `SOURCES_CONFIG` dict. -/
def sourcesConfigKeys : List (List Char) :=
  ["coindesk".data, "cointelegraph".data, "decrypt".data,
   "bitcoinmagazine".data, "cryptoslate".data, "utoday".data,
   "portaldobitcoin".data, "cointelegraphbr".data, "criptofacil".data]

/-- The keys of the `POPULAR_SOURCES` dict. -/
def popularSourcesKeys : List (List Char) :=
  ["coindesk_pt".data, "binance_square".data, "binance_news".data,
   "livecoins".data, "infomoney".data, "ccnbrasil".data, "whalealert".data,
   "glassnode".data, "tradingview".data, "binance_blog".data,
   "beincrypto".data, "beincrypto_br".data, "theblock".data,
   "blockworks".data, "coinpedia".data, "ambcrypto".data, "newsbtc".data,
   "dailyhodl".data, "cryptopotato".data, "coingape".data, "bitcoinist".data,
   "cryptobriefing".data, "messari".data, "defiant".data,
   "portaldobitcoin".data, "criptofacil".data, "cointelegraph_br".data,
   "moneytimes".data, "exame_future".data, "btcbrasil".data,
   "coinbase_blog".data, "kraken_blog".data, "mercadobitcoin".data]

/-- The configuration data the news-fetch cycle reads. -/
structure NewsConfig where
  sources_enabled : List (List Char × Bool)
  custom_sources : List (List Char)
  cycle_interval : Nat

/-- A source key resolves when it is a built-in, custom, or popular source;
otherwise the loop `continue`s. -/
def resolvable (cfg : NewsConfig) (k : List Char) : Bool :=
  k ∈ sourcesConfigKeys || k ∈ cfg.custom_sources || k ∈ popularSourcesKeys

/-- A Python exception, by repr. -/
def PyErr : Type := List Char

/-- One iteration of the source loop of `run_news_fetcher`: skip disabled
and unresolvable keys; the fetch-and-post work of a resolvable source is
wrapped in its own `try/except` that logs the error and continues, appending
(key, raised exception if any) to the cycle log. -/
def newsStep (cfg : NewsConfig) (fetch : List Char → Except PyErr Unit)
    (acc : List (List Char × Option PyErr)) (p : List Char × Bool) :
    List (List Char × Option PyErr) :=
  if !p.2 then acc
  else if resolvable cfg p.1 then
    match fetch p.1 with
    | Except.ok _ => acc ++ [(p.1, none)]
    | Except.error e => acc ++ [(p.1, some e)]
  else acc

/-- One cycle of the `while True` body of `run_news_fetcher`, in the
exception monad (see `newsStep` for the per-source step): iterate the
enabled sources in order, then end with `time.sleep(cycle_interval)`. -/
def runNewsCycle (cfg : NewsConfig) (fetch : List Char → Except PyErr Unit) :
    Except PyErr (List (List Char × Option PyErr) × Nat) := do
  let log := cfg.sources_enabled.foldl (newsStep cfg fetch) []
  return (log, cfg.cycle_interval)

/-! ## External-call wrappers (`admin_bot.py`) -/

/-- `translate_text(text, target)` from `admin_bot.py`.  `hasTr` models
`HAS_TRANSLATOR`; `ctorOk = false` models the `GoogleTranslator(...)`
constructor raising; `tr` models `translator.translate`, with `none` for a
raised exception.  Texts longer than 4000 characters are truncated *inside*
the `try`, before the translate call, so the `except` branch returns the
truncated binding. -/
def translate_text (hasTr ctorOk : Bool)
    (tr : List Char → Option (List Char)) (text : List Char) : List Char :=
  if !hasTr || text.isEmpty then text
  else if !ctorOk then text
  else
    let t := if 4000 < text.length then text.take 4000 else text
    match tr t with
    | some r => r
    | none => t

/-- `call_groq_ai`: returns `None` when the API key is unset/empty, the
request raises, or the response JSON has no usable `choices`; otherwise the
stripped message content.  The oracle result `Except.ok none` models a JSON
response without `choices` (or any exception while extracting the
content). -/
def call_groq_ai (apiKey : Option (List Char))
    (resp : Except PyErr (Option (List Char))) : Option (List Char) :=
  if optFalsy apiKey then none
  else
    match resp with
    | Except.error _ => none
    | Except.ok none => none
    | Except.ok (some content) => some content

/-- `TelegramAPI.send_message`: builds the payload and calls
`requests.post` with *no* surrounding `try/except`; a transport exception
propagates to the caller. -/
def TelegramAPI_send_message (post : List Char × List Char → Except PyErr Unit)
    (chatId text : List Char) : Except PyErr Unit :=
  post (chatId, text)

/-- The delivery loop of `send_event_alert`: each per-target send has its own
`try/except` that logs and continues, and the whole loop is wrapped in a
`try` whose normal exit returns `True`.  Returns the Bool result together
with the attempt log (target, raised exception if any). -/
def send_event_alert_run (send1 : List Char → Except PyErr Unit)
    (targets : List (List Char)) : Bool × List (List Char × Option PyErr) :=
  (true,
   targets.map (fun t =>
     match send1 t with
     | Except.ok _ => (t, none)
     | Except.error e => (t, some e)))

/-! ## The per-source seen-set (claim C1)

`NewsPostman._action` lives in `telegram_news/template.py`, which is not
part of the sources here (only the package's `__init__.py` is). -/

/-- Modelled from the spec: `NewsPostman._action` (file
`telegram_news/template.py`, absent from the sources) keeps one seen-set
table per source keyed by `safe_id_policy` of the article link, performs an
existence check against it before posting, and records the hash after
posting; a link whose hash is already recorded is skipped. -/
def processLink (st : List (List Char) × List (List Char)) (link : List Char) :
    List (List Char) × List (List Char) :=
  let h := RunBot.safe_id_policy link
  if h ∈ st.1 then st
  else (h :: st.1, st.2 ++ [link])

/-- Processing a whole list of extracted links against a seen-set. -/
def processLinks (st : List (List Char) × List (List Char))
    (links : List (List Char)) : List (List Char) × List (List Char) :=
  links.foldl processLink st

/-! ## Helper lemmas -/

/-- Lower-case hexadecimal character test. -/
def isHexDigitChar (c : Char) : Bool :=
  (48 ≤ c.toNat && c.toNat ≤ 57) || (97 ≤ c.toNat && c.toNat ≤ 102)

theorem length_toBytesLE (n v : Nat) : (MD5.toBytesLE n v).length = n := by
  induction n generalizing v with
  | zero => rfl
  | succ k ih => simp [MD5.toBytesLE, ih]

theorem mem_toBytesLE_lt {n v x : Nat} (hx : x ∈ MD5.toBytesLE n v) :
    x < 256 := by
  induction n generalizing v with
  | zero => simp [MD5.toBytesLE] at hx
  | succ k ih =>
    simp only [MD5.toBytesLE, List.mem_cons] at hx
    rcases hx with h | h
    · subst h; exact Nat.mod_lt _ (by norm_num)
    · exact ih h

theorem length_md5Bytes (msg : List Nat) : (MD5.md5Bytes msg).length = 16 := by
  simp [MD5.md5Bytes, length_toBytesLE]

theorem mem_md5Bytes_lt {msg : List Nat} {x : Nat}
    (hx : x ∈ MD5.md5Bytes msg) : x < 256 := by
  simp only [MD5.md5Bytes, List.mem_append] at hx
  rcases hx with ((h | h) | h) | h <;> exact mem_toBytesLE_lt h

theorem length_hexdigest (bs : List Nat) :
    (MD5.hexdigest bs).length = 2 * bs.length := by
  induction bs with
  | nil => rfl
  | cons b rest ih =>
    simp only [MD5.hexdigest, List.map_cons, List.flatten_cons,
      List.length_append, List.length_cons] at *
    simp [MD5.byteHex, ih]
    ring

theorem hexDigit_isHex : ∀ k, k < 16 → isHexDigitChar (MD5.hexDigit k) = true := by
  decide

theorem mem_hexdigest_isHex {bs : List Nat} (hb : ∀ x ∈ bs, x < 256)
    {c : Char} (hc : c ∈ MD5.hexdigest bs) : isHexDigitChar c = true := by
  simp only [MD5.hexdigest, List.mem_flatten, List.mem_map] at hc
  obtain ⟨l, ⟨b, hbmem, rfl⟩, hcl⟩ := hc
  have hblt : b < 256 := hb b hbmem
  simp only [MD5.byteHex, List.mem_cons, List.not_mem_nil, or_false] at hcl
  rcases hcl with rfl | rfl
  · exact hexDigit_isHex _ (Nat.div_lt_of_lt_mul (by omega))
  · exact hexDigit_isHex _ (Nat.mod_lt _ (by norm_num))

/-! ## Claim C6: the deduplication key -/

/-- C6: the deduplication key of an article link is the first 10 hexadecimal
characters of the MD5 digest of the UTF-8 encoding of the link; it is a pure
function of the link, and the copies of `safe_id_policy` in `run_bot.py` and
`admin_bot.py` compute the same value for every link. -/
theorem dedup_key_md5_take10 (link : List Char) :
    RunBot.safe_id_policy link = AdminBot.safe_id_policy link
    ∧ RunBot.safe_id_policy link
        = (MD5.hexdigest (MD5.md5Bytes (utf8Encode link))).take 10
    ∧ (RunBot.safe_id_policy link).length = 10
    ∧ ∀ c ∈ RunBot.safe_id_policy link, isHexDigitChar c = true := by
  refine ⟨rfl, rfl, ?_, ?_⟩
  · simp [RunBot.safe_id_policy, List.length_take, length_hexdigest,
      length_md5Bytes]
  · intro c hc
    have hmem : c ∈ MD5.hexdigest (MD5.md5Bytes (utf8Encode link)) :=
      List.take_subset _ _ hc
    exact mem_hexdigest_isHex (fun x hx => mem_md5Bytes_lt hx) hmem

/-- Witness for C6 at a concrete link. -/
theorem dedup_key_md5_take10_witness :
    RunBot.safe_id_policy "https://example.com".data
      = AdminBot.safe_id_policy "https://example.com".data
    ∧ isHexDigitChar
        ((RunBot.safe_id_policy "https://example.com".data).headD 'z') = true :=
  ⟨(dedup_key_md5_take10 _).1,
   (dedup_key_md5_take10 "https://example.com".data).2.2.2 _ (by decide)⟩

/-! ## Claim C4: external calls and failure defaults -/

/-- What `translate_text` returns when the translate call raises: the input,
truncated to 4000 characters when longer. -/
theorem translate_text_on_fail (text : List Char)
    (tr : List Char → Option (List Char))
    (htr : tr (if 4000 < text.length then text.take 4000 else text) = none) :
    translate_text true true tr text
      = if 4000 < text.length then text.take 4000 else text := by
  by_cases hemp : text.isEmpty
  · have : text = [] := by simpa [List.isEmpty_iff] using hemp
    subst this
    simp [translate_text]
  · have hemp2 : text.isEmpty = false := by simpa using hemp
    simp only [translate_text, hemp2, Bool.not_true, Bool.false_or,
      Bool.false_eq_true, if_false, htr]

/-- C4 counterexample: `translate_text` does *not* return its input unchanged
on a translator failure when the input exceeds 4000 characters (it returns
the 4000-character truncation), and `TelegramAPI.send_message` propagates a
transport exception to its caller. -/
theorem translate_unchanged_and_send_wrapped_fails :
    translate_text true true (fun _ => none) (List.replicate 4001 'a')
      ≠ List.replicate 4001 'a'
    ∧ TelegramAPI_send_message (fun _ => Except.error "ConnectionError".data)
        "@chan".data "hello".data
      = Except.error "ConnectionError".data := by
  constructor
  · have h1 := translate_text_on_fail (List.replicate 4001 'a')
      (fun _ => none) rfl
    rw [List.length_replicate] at h1
    rw [if_pos (by norm_num : (4000 : Nat) < 4001), List.take_replicate] at h1
    rw [(by norm_num : min 4000 4001 = 4000)] at h1
    rw [h1]
    intro h
    have hlen := congrArg List.length h
    rw [List.length_replicate, List.length_replicate] at hlen
    exact absurd hlen (by norm_num)
  · rfl

/-- C4 amended: `translate_text` returns its input — truncated to its first
4000 characters when longer — whenever the translator raises; `call_groq_ai`
returns `None` whenever the request raises or the response has no usable
`choices`; `TelegramAPI.send_message` itself is not wrapped and propagates
transport exceptions, but the alert delivery loop (`send_event_alert`)
catches each per-target failure, attempts every target, and returns
normally. -/
theorem external_calls_failure_defaults :
    (∀ (text : List Char) (tr : List Char → Option (List Char)),
      tr (if 4000 < text.length then text.take 4000 else text) = none →
      translate_text true true tr text
        = if 4000 < text.length then text.take 4000 else text)
    ∧ (∀ (k : Option (List Char)) (e : PyErr),
        call_groq_ai k (Except.error e) = none)
    ∧ (∀ k : Option (List Char), call_groq_ai k (Except.ok none) = none)
    ∧ (∀ (send1 : List Char → Except PyErr Unit) (targets : List (List Char)),
        (send_event_alert_run send1 targets).1 = true
        ∧ (send_event_alert_run send1 targets).2.map Prod.fst = targets) := by
  refine ⟨translate_text_on_fail, ?_, ?_, ?_⟩
  · intro k e
    by_cases hk : optFalsy k = true <;> simp [call_groq_ai, hk]
  · intro k
    by_cases hk : optFalsy k = true <;> simp [call_groq_ai, hk]
  · intro send1 targets
    refine ⟨rfl, ?_⟩
    induction targets with
    | nil => rfl
    | cons t rest ih =>
      simp only [send_event_alert_run, List.map_cons] at *
      cases h : send1 t <;> simp_all

/-- Witness for C4 amended, at concrete inputs. -/
theorem external_calls_failure_defaults_witness :
    translate_text true true (fun _ => none) "abc".data = "abc".data
    ∧ call_groq_ai (some "key".data) (Except.error "Timeout".data) = none := by
  constructor
  · have h := external_calls_failure_defaults.1 "abc".data (fun _ => none) rfl
    simpa using h
  · exact external_calls_failure_defaults.2.1 (some "key".data) "Timeout".data

/-! ## Claim C7: the news-fetch cycle never dies -/

theorem newsFold_spec (cfg : NewsConfig) (fetch : List Char → Except PyErr Unit) :
    ∀ (l : List (List Char × Bool)) (acc : List (List Char × Option PyErr)),
      (l.foldl (newsStep cfg fetch) acc).map Prod.fst
        = acc.map Prod.fst
          ++ (l.filter (fun p => p.2 && resolvable cfg p.1)).map Prod.fst
      ∧ (∀ k e, (k, some e) ∈ l.foldl (newsStep cfg fetch) acc →
          (k, some e) ∈ acc ∨ fetch k = Except.error e) := by
  intro l
  induction l with
  | nil =>
    intro acc
    exact ⟨by simp, fun k e h => Or.inl h⟩
  | cons p rest ih =>
    intro acc
    simp only [List.foldl_cons]
    have key : ((newsStep cfg fetch acc p).map Prod.fst
          = acc.map Prod.fst
            ++ (if p.2 && resolvable cfg p.1 then [p.1] else []))
        ∧ ∀ k e, (k, some e) ∈ newsStep cfg fetch acc p →
            (k, some e) ∈ acc ∨ fetch k = Except.error e := by
      rcases p with ⟨k0, en⟩
      cases en with
      | false =>
        exact ⟨by simp [newsStep],
          fun k e h => Or.inl (by simpa [newsStep] using h)⟩
      | true =>
        by_cases hres : resolvable cfg k0 = true
        · cases hfe : fetch k0 with
          | ok _ =>
            refine ⟨by simp [newsStep, hres, hfe], ?_⟩
            intro k e hmem
            have hmem2 : (k, some e) ∈ acc ++ [(k0, (none : Option PyErr))] := by
              simpa [newsStep, hres, hfe] using hmem
            rcases List.mem_append.mp hmem2 with h | h
            · exact Or.inl h
            · have h2 := List.mem_singleton.mp h
              simp at h2
          | error e0 =>
            refine ⟨by simp [newsStep, hres, hfe], ?_⟩
            intro k e hmem
            have hmem2 : (k, some e) ∈ acc ++ [(k0, some e0)] := by
              simpa [newsStep, hres, hfe] using hmem
            rcases List.mem_append.mp hmem2 with h | h
            · exact Or.inl h
            · have h2 := List.mem_singleton.mp h
              rw [Prod.ext_iff] at h2
              obtain ⟨hk, he⟩ := h2
              subst hk
              rw [Option.some.injEq] at he
              subst he
              exact Or.inr hfe
        · refine ⟨by simp [newsStep, hres], ?_⟩
          intro k e hmem
          exact Or.inl (by simpa [newsStep, hres] using hmem)
    obtain ⟨hmap, hmem⟩ := key
    obtain ⟨ihmap, ihmem⟩ := ih (newsStep cfg fetch acc p)
    constructor
    · rw [ihmap, hmap]
      rcases p with ⟨k0, en⟩
      by_cases hres : (en && resolvable cfg k0) = true
      · simp [hres, List.filter_cons]
      · simp [List.filter_cons, hres]
    · intro k e hm
      rcases ihmem k e hm with h | h
      · exact hmem k e h
      · exact Or.inr h

/-- C7: in every cycle of the news-fetch loop, a per-source failure is
caught and logged and the loop continues with the next enabled source; no
exception escapes the cycle body, and the cycle always ends normally with
the fixed `cycle_interval` sleep, whatever the fetch outcomes are. -/
theorem news_cycle_survives_failures (cfg : NewsConfig)
    (fetch : List Char → Except PyErr Unit) :
    ∃ log, runNewsCycle cfg fetch = Except.ok (log, cfg.cycle_interval)
      ∧ log.map Prod.fst
        = (cfg.sources_enabled.filter
            (fun p => p.2 && resolvable cfg p.1)).map Prod.fst
      ∧ ∀ k e, (k, some e) ∈ log → fetch k = Except.error e := by
  refine ⟨cfg.sources_enabled.foldl (newsStep cfg fetch) [], rfl, ?_, ?_⟩
  · simpa using (newsFold_spec cfg fetch cfg.sources_enabled []).1
  · intro k e hm
    rcases (newsFold_spec cfg fetch cfg.sources_enabled []).2 k e hm with h | h
    · simp at h
    · exact h

/-! ## Claim C1: at most one post per link hash per source -/

theorem processLinks_inv (links : List (List Char)) :
    ∀ (seen posted : List (List Char)),
      (posted.map RunBot.safe_id_policy).Nodup →
      (∀ p ∈ posted, RunBot.safe_id_policy p ∈ seen) →
      ((processLinks (seen, posted) links).2.map RunBot.safe_id_policy).Nodup
      ∧ (∀ p ∈ (processLinks (seen, posted) links).2,
          RunBot.safe_id_policy p ∈ (processLinks (seen, posted) links).1)
      ∧ (∀ L ∈ (processLinks (seen, posted) links).2,
          L ∈ posted ∨ RunBot.safe_id_policy L ∉ seen) := by
  induction links with
  | nil =>
    intro seen posted hnd hsub
    refine ⟨hnd, hsub, ?_⟩
    intro L hL
    exact Or.inl hL
  | cons link rest ih =>
    intro seen posted hnd hsub
    simp only [processLinks, List.foldl_cons]
    by_cases hmem : RunBot.safe_id_policy link ∈ seen
    · have hstep : processLink (seen, posted) link = (seen, posted) := by
        simp [processLink, hmem]
      rw [hstep]
      exact ih seen posted hnd hsub
    · have hstep : processLink (seen, posted) link
          = (RunBot.safe_id_policy link :: seen, posted ++ [link]) := by
        simp [processLink, hmem]
      rw [hstep]
      have hnd2 : ((posted ++ [link]).map RunBot.safe_id_policy).Nodup := by
        rw [List.map_append]
        refine List.Nodup.append hnd (by simp) ?_
        intro x hx hx2
        simp only [List.map_cons, List.map_nil, List.mem_singleton] at hx2
        subst hx2
        obtain ⟨p, hp, hpx⟩ := List.mem_map.mp hx
        exact hmem (hpx ▸ hsub p hp)
      have hsub2 : ∀ p ∈ posted ++ [link],
          RunBot.safe_id_policy p ∈ RunBot.safe_id_policy link :: seen := by
        intro p hp
        rcases List.mem_append.mp hp with h | h
        · exact List.mem_cons_of_mem _ (hsub p h)
        · simp only [List.mem_singleton] at h
          subst h
          exact List.mem_cons_self _ _
      obtain ⟨h1, h2, h3⟩ := ih _ _ hnd2 hsub2
      refine ⟨h1, h2, ?_⟩
      intro L hL
      rcases h3 L hL with h | h
      · rcases List.mem_append.mp h with h | h
        · exact Or.inl h
        · simp only [List.mem_singleton] at h
          subst h
          exact Or.inr hmem
      · exact Or.inr fun hc => h (List.mem_cons_of_mem _ hc)

/-- C1 (the seen-set check is modelled from the spec, see `processLink`):
starting from any recorded seen-set, a link whose hash is already recorded
is never posted, and the links posted while processing any stream have
pairwise distinct hashes — each hash is posted at most once per source. -/
theorem post_at_most_once_per_hash (seen : List (List Char))
    (links : List (List Char)) :
    (∀ L ∈ (processLinks (seen, []) links).2,
      RunBot.safe_id_policy L ∉ seen)
    ∧ ((processLinks (seen, []) links).2.map RunBot.safe_id_policy).Nodup := by
  obtain ⟨h1, _, h3⟩ := processLinks_inv links seen [] (by simp) (by simp)
  refine ⟨?_, h1⟩
  intro L hL
  rcases h3 L hL with h | h
  · simp at h
  · exact h

/-- Witness for C1: a link whose hash is already in the seen-set is not
posted. -/
theorem post_at_most_once_per_hash_witness :
    RunBot.safe_id_policy "https://b.example/2".data
      ∉ [RunBot.safe_id_policy "https://a.example/1".data] :=
  (post_at_most_once_per_hash
      [RunBot.safe_id_policy "https://a.example/1".data]
      ["https://b.example/2".data]).1
    "https://b.example/2".data (by decide)

/-! ## Claim C10: `ConfigManager.toggle` -/

theorem dictGet_dictSet {α : Type} (d : List (List Char × α)) (k : List Char)
    (v : α) : dictGet (dictSet d k v) k = (dictGet d k).map (fun _ => v) := by
  induction d with
  | nil => rfl
  | cons p rest ih =>
    by_cases h : p.1 == k
    · simp [dictGet, dictSet, List.find?, h]
    · simp only [dictSet, h, if_false, Bool.false_eq_true]
      simp only [dictGet, List.find?, h] at *
      exact ih

theorem dictSet_same {α : Type} (d : List (List Char × α)) (k : List Char)
    (v : α) (h : dictGet d k = some v) : dictSet d k v = d := by
  induction d with
  | nil => simp [dictGet] at h
  | cons p rest ih =>
    by_cases hp : p.1 == k
    · have hv : p.2 = v := by
        simp only [dictGet, List.find?, hp, Option.map_some',
          Option.some.injEq] at h
        exact h
      simp [dictSet, hp, ← hv]
    · have h2 : dictGet rest k = some v := by
        simp only [dictGet, List.find?, hp] at h ⊢
        exact h
      simp [dictSet, hp, ih h2]

theorem dictSet_dictSet {α : Type} (d : List (List Char × α)) (k : List Char)
    (v1 v2 : α) : dictSet (dictSet d k v1) k v2 = dictSet d k v2 := by
  induction d with
  | nil => rfl
  | cons p rest ih =>
    by_cases hp : p.1 == k
    · simp [dictSet, hp]
    · simp [dictSet, hp, ih]

/-- C10 counterexample: toggling `format.min_relevance_score` (present in the
configuration, value `5`) twice does *not* restore the configuration —
Python's `not 5` is `False`, and `not False` is `True`. -/
theorem toggle_twice_not_identity :
    (ConfigManager_toggle DEFAULT_CONFIG "format".data
        "min_relevance_score".data).bind
      (fun c => ConfigManager_toggle c "format".data
        "min_relevance_score".data)
      ≠ some DEFAULT_CONFIG := by
  decide

/-- C10 amended: `toggle` is an involution on keys holding *boolean* values
(toggling twice restores the configuration); a non-boolean value is replaced
by its Python negation, so two toggles yield `True` rather than the original
value; toggling a missing section or a missing key leaves the configuration
unchanged. -/
theorem toggle_involution_on_bools (config : Config) (sect key : List Char) :
    (∀ (d : List (List Char × PyVal)) (b : Bool),
      dictGet config sect = some (PySection.sDict d) →
      dictGet d key = some (PyVal.vBool b) →
      (ConfigManager_toggle config sect key).bind
        (fun c => ConfigManager_toggle c sect key) = some config)
    ∧ (dictGet config sect = none →
        ConfigManager_toggle config sect key = some config)
    ∧ (∀ d, dictGet config sect = some (PySection.sDict d) →
        dictGet d key = none →
        ConfigManager_toggle config sect key = some config) := by
  refine ⟨?_, ?_, ?_⟩
  · intro d b hs hk
    have hnot : pyNot (PyVal.vBool b) = PyVal.vBool (!b) := by
      simp [pyNot, pyTruthy]
    have h1 : ConfigManager_toggle config sect key
        = some (dictSet config sect
            (PySection.sDict (dictSet d key (PyVal.vBool (!b))))) := by
      simp only [ConfigManager_toggle, hs, hk, hnot]
    have hg1 : dictGet (dictSet config sect
          (PySection.sDict (dictSet d key (PyVal.vBool (!b))))) sect
        = some (PySection.sDict (dictSet d key (PyVal.vBool (!b)))) := by
      rw [dictGet_dictSet, hs]
      rfl
    have hg2 : dictGet (dictSet d key (PyVal.vBool (!b))) key
        = some (PyVal.vBool (!b)) := by
      rw [dictGet_dictSet, hk]
      rfl
    have hnot2 : pyNot (PyVal.vBool (!b)) = PyVal.vBool b := by
      simp [pyNot, pyTruthy]
    rw [h1, Option.some_bind]
    simp only [ConfigManager_toggle, hg1, hg2, hnot2, dictSet_dictSet]
    rw [dictSet_same d key (PyVal.vBool b) hk, dictSet_same config sect _ hs]
  · intro hs
    simp [ConfigManager_toggle, hs]
  · intro d hs hk
    simp [ConfigManager_toggle, hs, hk]

/-- Witness for C10 amended: toggling the boolean key `format.show_link`
twice restores `DEFAULT_CONFIG`. -/
theorem toggle_involution_on_bools_witness :
    (ConfigManager_toggle DEFAULT_CONFIG "format".data "show_link".data).bind
      (fun c => ConfigManager_toggle c "format".data "show_link".data)
      = some DEFAULT_CONFIG :=
  (toggle_involution_on_bools DEFAULT_CONFIG "format".data "show_link".data).1
    [("show_link".data, PyVal.vBool true),
     ("show_image".data, PyVal.vBool true),
     ("show_video".data, PyVal.vBool false),
     ("translate".data, PyVal.vBool true),
     ("summarize".data, PyVal.vBool false),
     ("filter_relevance".data, PyVal.vBool false),
     ("add_emoji".data, PyVal.vBool false),
     ("min_relevance_score".data, PyVal.vInt 5),
     ("style".data, PyVal.vStr "complete".data)]
    true (by decide) (by decide)

/-! ## Claim C5: the fan-out destination list -/

theorem sendList_mono (gs : List BotGroup) :
    ∀ (acc : List Destination) (d : Destination), d ∈ acc →
      d ∈ gs.foldl sendListStep acc := by
  induction gs with
  | nil => intro acc d hd; exact hd
  | cons g rest ih =>
    intro acc d hd
    simp only [List.foldl_cons]
    apply ih
    unfold sendListStep
    by_cases h : acc.any (fun d2 => d2.chat_id == some g.chat_id)
    · simpa [h] using hd
    · simp only [h]
      exact List.mem_append_left _ hd

theorem sendList_mono_map (gs : List BotGroup) (acc : List Destination)
    (x : Option (List Char))
    (hx : x ∈ acc.map (fun d => d.chat_id)) :
    x ∈ (gs.foldl sendListStep acc).map (fun d => d.chat_id) := by
  obtain ⟨d, hd, rfl⟩ := List.mem_map.mp hx
  exact List.mem_map.mpr ⟨d, sendList_mono gs acc d hd, rfl⟩

theorem sendList_head (gs : List BotGroup) :
    ∀ (acc : List Destination), acc ≠ [] →
      (gs.foldl sendListStep acc).head? = acc.head?
      ∧ gs.foldl sendListStep acc ≠ [] := by
  induction gs with
  | nil => intro acc h; exact ⟨rfl, h⟩
  | cons g rest ih =>
    intro acc hacc
    simp only [List.foldl_cons]
    have hstep : (sendListStep acc g).head? = acc.head?
        ∧ sendListStep acc g ≠ [] := by
      unfold sendListStep
      by_cases h : acc.any (fun d2 => d2.chat_id == some g.chat_id)
      · simp [h, hacc]
      · simp only [h]
        cases acc with
        | nil => exact absurd rfl hacc
        | cons a rest2 => simp
    obtain ⟨h1, h2⟩ := ih (sendListStep acc g) hstep.2
    exact ⟨h1.trans hstep.1, h2⟩

theorem sendList_shape (gs : List BotGroup) :
    ∀ (acc : List Destination) (d : Destination),
      d ∈ gs.foldl sendListStep acc →
      d ∈ acc ∨ ∃ g ∈ gs, d = destOfGroup g := by
  induction gs with
  | nil => intro acc d hd; exact Or.inl hd
  | cons g rest ih =>
    intro acc d hd
    simp only [List.foldl_cons] at hd
    rcases ih (sendListStep acc g) d hd with h | ⟨g2, hg2, rfl⟩
    · unfold sendListStep at h
      by_cases hp : acc.any (fun d2 => d2.chat_id == some g.chat_id)
      · simp only [hp, if_true] at h
        exact Or.inl h
      · simp only [hp, Bool.false_eq_true, if_false] at h
        rcases List.mem_append.mp h with h2 | h2
        · exact Or.inl h2
        · exact Or.inr ⟨g, List.mem_cons_self .., List.mem_singleton.mp h2⟩
      -- d came from the accumulator or is g's destination
    · exact Or.inr ⟨g2, List.mem_cons_of_mem _ hg2, rfl⟩

theorem sendList_nodup (gs : List BotGroup) :
    ∀ (acc : List Destination),
      (acc.map (fun d => d.chat_id)).Nodup →
      ((gs.foldl sendListStep acc).map (fun d => d.chat_id)).Nodup := by
  induction gs with
  | nil => intro acc h; exact h
  | cons g rest ih =>
    intro acc hacc
    simp only [List.foldl_cons]
    apply ih
    unfold sendListStep
    by_cases hp : acc.any (fun d2 => d2.chat_id == some g.chat_id)
    · simpa [hp] using hacc
    · simp only [hp, Bool.false_eq_true, if_false, List.map_append]
      refine List.Nodup.append hacc (by simp) ?_
      intro x hx hx2
      simp only [destOfGroup, List.map_cons, List.map_nil,
        List.mem_singleton] at hx2
      subst hx2
      obtain ⟨d2, hd2, hchat⟩ := List.mem_map.mp hx
      have := List.any_eq_false.mp (Bool.not_eq_true _ ▸ hp) d2 hd2
      rw [hchat] at this
      simp at this

theorem sendList_cover (gs : List BotGroup) :
    ∀ (acc : List Destination) (g : BotGroup), g ∈ gs →
      some g.chat_id ∈ (gs.foldl sendListStep acc).map (fun d => d.chat_id) := by
  induction gs with
  | nil => intro acc g hg; simp at hg
  | cons g0 rest ih =>
    intro acc g hg
    simp only [List.foldl_cons]
    rcases List.mem_cons.mp hg with rfl | hg2
    · apply sendList_mono_map
      unfold sendListStep
      by_cases hp : acc.any (fun d2 => d2.chat_id == some g.chat_id)
      · obtain ⟨d2, hd2, hb⟩ := List.any_eq_true.mp hp
        have : d2.chat_id = some g.chat_id := by simpa using hb
        simp only [hp, if_true]
        exact List.mem_map.mpr ⟨d2, hd2, this⟩
      · simp only [hp, Bool.false_eq_true, if_false, List.map_append]
        exact List.mem_append_right _ (by simp [destOfGroup])
    · exact ih _ g hg2

/-- C5 counterexample: an enabled group whose `chat_id` equals `CHANNEL_ID`
contributes no destination of its own — its destination (which carries its
sub-topic id) is missing from the fan-out list, so the list does not contain
every enabled `BotGroup`. -/
theorem enabled_group_missing_from_send_list :
    (BotGroup.mk "A".data "G".data (some 5) (some "t".data) true).enabled = true
    ∧ destOfGroup (BotGroup.mk "A".data "G".data (some 5) (some "t".data) true)
        ∉ get_send_list (some "A".data)
            [BotGroup.mk "A".data "G".data (some 5) (some "t".data) true] := by
  decide

/-- C5 amended: with `CHANNEL_ID` set (non-empty), the fan-out list starts
with the main channel; every entry after it is the destination (chat id plus
optional topic id) of some enabled group and no disabled group contributes;
every enabled group's chat id appears in the list; and no chat id appears
twice — a group whose chat id duplicates the channel's or an earlier group's
adds no separate entry (its topic id is dropped). -/
theorem send_list_fanout (c : List Char) (groups : List BotGroup)
    (hc : c.isEmpty = false) :
    (get_send_list (some c) groups).head? = some (mainDest (some c))
    ∧ ((get_send_list (some c) groups).map (fun d => d.chat_id)).Nodup
    ∧ (∀ g ∈ groups, g.enabled = true →
        some g.chat_id ∈ (get_send_list (some c) groups).map
          (fun d => d.chat_id))
    ∧ (∀ d ∈ get_send_list (some c) groups, d = mainDest (some c)
        ∨ ∃ g ∈ groups, g.enabled = true ∧ d = destOfGroup g) := by
  have hinit : (if optFalsy (some c) then ([] : List Destination)
      else [mainDest (some c)]) = [mainDest (some c)] := by
    simp [optFalsy, hc]
  have hfold := sendList_head (groups.filter (fun g => g.enabled))
    [mainDest (some c)] (by simp)
  have hgl : get_send_list (some c) groups
      = (groups.filter (fun g => g.enabled)).foldl sendListStep
          [mainDest (some c)] := by
    unfold get_send_list
    rw [hinit]
    have : ((groups.filter (fun g => g.enabled)).foldl sendListStep
        [mainDest (some c)]).isEmpty = false := by
      rcases h : (groups.filter (fun g => g.enabled)).foldl sendListStep
          [mainDest (some c)] with _ | ⟨a, rest⟩
      · exact absurd h hfold.2
      · rw [h]
        rfl
    simp [this]
  rw [hgl]
  refine ⟨by rw [hfold.1]; rfl, ?_, ?_, ?_⟩
  · exact sendList_nodup _ _ (by simp)
  · intro g hg hen
    exact sendList_cover _ _ g (List.mem_filter.mpr ⟨hg, hen⟩)
  · intro d hd
    rcases sendList_shape _ _ d hd with h | ⟨g, hg, rfl⟩
    · simp only [List.mem_singleton] at h
      exact Or.inl h
    · obtain ⟨hmem, hen⟩ := List.mem_filter.mp hg
      exact Or.inr ⟨g, hmem, hen, rfl⟩

/-- Witness for C5 amended at a concrete channel and group table. -/
theorem send_list_fanout_witness :
    some "B".data ∈ (get_send_list (some "A".data)
        [BotGroup.mk "B".data "G1".data none none true,
         BotGroup.mk "C".data "G2".data none none false]).map
      (fun d => d.chat_id) :=
  (send_list_fanout "A".data
      [BotGroup.mk "B".data "G1".data none none true,
       BotGroup.mk "C".data "G2".data none none false]
      (by decide)).2.2.1
    (BotGroup.mk "B".data "G1".data none none true) (by decide) rfl

/-! ## The event-alert pass: helper lemmas -/

theorem step1day_id (cfg : CalCfg) (now : PyDateTime)
    (send : Nat → AlertKind → Bool) (e : CryptoEvent) :
    (step1day cfg now send e).id = e.id := by
  unfold step1day
  split <;> rfl

theorem step1hour_id (now : PyDateTime) (send : Nat → AlertKind → Bool)
    (e : CryptoEvent) : (step1hour now send e).id = e.id := by
  unfold step1hour
  split <;> rfl

theorem sel1hour_step1day (cfg : CalCfg) (now now2 : PyDateTime)
    (send : Nat → AlertKind → Bool) (e : CryptoEvent) :
    sel1hour now2 (step1day cfg now send e) = sel1hour now2 e := by
  unfold step1day
  split <;> rfl

theorem flagW_step1day_hour (cfg : CalCfg) (now : PyDateTime)
    (send : Nat → AlertKind → Bool) (e : CryptoEvent) :
    flagW AlertKind.hour1 (step1day cfg now send e)
      = flagW AlertKind.hour1 e := by
  unfold step1day
  split <;> rfl

theorem flagW_step1hour_day (now : PyDateTime) (send : Nat → AlertKind → Bool)
    (e : CryptoEvent) :
    flagW AlertKind.day1 (step1hour now send e) = flagW AlertKind.day1 e := by
  unfold step1hour
  split <;> rfl

theorem step1day_mono (cfg : CalCfg) (now : PyDateTime)
    (send : Nat → AlertKind → Bool) (e : CryptoEvent) (k : AlertKind)
    (h : flagW k e = true) : flagW k (step1day cfg now send e) = true := by
  unfold step1day
  split
  · cases k with
    | day1 => rfl
    | hour1 => exact h
  · exact h

theorem step1hour_mono (now : PyDateTime) (send : Nat → AlertKind → Bool)
    (e : CryptoEvent) (k : AlertKind) (h : flagW k e = true) :
    flagW k (step1hour now send e) = true := by
  unfold step1hour
  split
  · cases k with
    | day1 => exact h
    | hour1 => rfl
  · exact h

theorem mem_tagCalls (evs : List CryptoEvent) (p : CryptoEvent → Bool)
    (i : Nat) (k k0 : AlertKind) :
    ((i, k) ∈ (evs.filter p).map (fun e => (e.id, k0)))
      ↔ (k = k0 ∧ ∃ e ∈ evs, e.id = i ∧ p e = true) := by
  constructor
  · intro h
    obtain ⟨e, he, heq⟩ := List.mem_map.mp h
    obtain ⟨he1, he2⟩ := List.mem_filter.mp he
    rw [Prod.ext_iff] at heq
    exact ⟨heq.2.symm, e, he1, heq.1, he2⟩
  · rintro ⟨rfl, e, he, rfl, hp⟩
    exact List.mem_map.mpr ⟨e, List.mem_filter.mpr ⟨he, hp⟩, rfl⟩

theorem mem_tagCalls_map (evs : List CryptoEvent) (f : CryptoEvent → CryptoEvent)
    (hid : ∀ e, (f e).id = e.id) (p : CryptoEvent → Bool)
    (hp : ∀ e, p (f e) = p e) (i : Nat) (k k0 : AlertKind) :
    ((i, k) ∈ ((evs.map f).filter p).map (fun e => (e.id, k0)))
      ↔ (k = k0 ∧ ∃ e ∈ evs, e.id = i ∧ p e = true) := by
  rw [mem_tagCalls]
  constructor
  · rintro ⟨rfl, e1, he1, hid1, hp1⟩
    obtain ⟨e, he, rfl⟩ := List.mem_map.mp he1
    exact ⟨rfl, e, he, (hid e) ▸ hid1, (hp e) ▸ hp1⟩
  · rintro ⟨rfl, e, he, rfl, hp1⟩
    exact ⟨rfl, f e, List.mem_map.mpr ⟨e, he, rfl⟩, hid e, (hp e).trans hp1⟩

theorem pass_calls_day (cfg : CalCfg) (now : PyDateTime)
    (send : Nat → AlertKind → Bool) (evs : List CryptoEvent) (i : Nat) :
    (i, AlertKind.day1) ∈ (checkAndSendEventAlerts cfg now send evs).2
      ↔ cfg.alerts_enabled = true ∧ cfg.alert_1day = true
        ∧ ∃ e ∈ evs, e.id = i ∧ (sel1day now e && catOK cfg e) = true := by
  cases ha : cfg.alerts_enabled with
  | false => simp [checkAndSendEventAlerts, ha]
  | true =>
    cases hd : cfg.alert_1day with
    | false =>
      cases hh : cfg.alert_1hour with
      | false => simp [checkAndSendEventAlerts, ha, hd, hh]
      | true =>
        simp only [checkAndSendEventAlerts, ha, hd, hh, Bool.not_true,
          Bool.false_eq_true, if_false, if_true, List.nil_append]
        rw [mem_tagCalls]
        simp
    | true =>
      cases hh : cfg.alert_1hour with
      | false =>
        simp only [checkAndSendEventAlerts, ha, hd, hh, Bool.not_true,
          Bool.false_eq_true, if_false, if_true, List.append_nil]
        rw [mem_tagCalls]
        simp
      | true =>
        simp only [checkAndSendEventAlerts, ha, hd, hh, Bool.not_true,
          Bool.false_eq_true, if_false, if_true, List.mem_append]
        rw [mem_tagCalls,
          mem_tagCalls_map evs (step1day cfg now send) (step1day_id cfg now send)
            (sel1hour now) (sel1hour_step1day cfg now now send)]
        simp

theorem pass_calls_hour (cfg : CalCfg) (now : PyDateTime)
    (send : Nat → AlertKind → Bool) (evs : List CryptoEvent) (i : Nat) :
    (i, AlertKind.hour1) ∈ (checkAndSendEventAlerts cfg now send evs).2
      ↔ cfg.alerts_enabled = true ∧ cfg.alert_1hour = true
        ∧ ∃ e ∈ evs, e.id = i ∧ sel1hour now e = true := by
  cases ha : cfg.alerts_enabled with
  | false => simp [checkAndSendEventAlerts, ha]
  | true =>
    cases hd : cfg.alert_1day with
    | false =>
      cases hh : cfg.alert_1hour with
      | false => simp [checkAndSendEventAlerts, ha, hd, hh]
      | true =>
        simp only [checkAndSendEventAlerts, ha, hd, hh, Bool.not_true,
          Bool.false_eq_true, if_false, if_true, List.nil_append]
        rw [mem_tagCalls]
        simp
    | true =>
      cases hh : cfg.alert_1hour with
      | false =>
        simp only [checkAndSendEventAlerts, ha, hd, hh, Bool.not_true,
          Bool.false_eq_true, if_false, if_true, List.append_nil]
        rw [mem_tagCalls]
        simp
      | true =>
        simp only [checkAndSendEventAlerts, ha, hd, hh, Bool.not_true,
          Bool.false_eq_true, if_false, if_true, List.mem_append]
        rw [mem_tagCalls,
          mem_tagCalls_map evs (step1day cfg now send) (step1day_id cfg now send)
            (sel1hour now) (sel1hour_step1day cfg now now send)]
        simp

/-- The combined effect of one pass on a single row. -/
def passEvent (cfg : CalCfg) (now : PyDateTime) (send : Nat → AlertKind → Bool)
    (e : CryptoEvent) : CryptoEvent :=
  if cfg.alerts_enabled && cfg.alert_1hour then
    step1hour now send
      (if cfg.alerts_enabled && cfg.alert_1day then step1day cfg now send e
       else e)
  else
    (if cfg.alerts_enabled && cfg.alert_1day then step1day cfg now send e
     else e)

theorem flagOf_map (f : CryptoEvent → CryptoEvent) (hid : ∀ e, (f e).id = e.id)
    (evs : List CryptoEvent) (i : Nat) (k : AlertKind) :
    flagOf (evs.map f) i k
      = (evs.find? (fun e => e.id == i)).map (fun e => flagW k (f e)) := by
  unfold flagOf
  rw [List.find?_map]
  have hcomp : ((fun e : CryptoEvent => e.id == i) ∘ f)
      = (fun e : CryptoEvent => e.id == i) := by
    funext e
    simp [Function.comp, hid]
  rw [hcomp, Option.map_map]
  rfl

theorem flagOf_pass (cfg : CalCfg) (now : PyDateTime)
    (send : Nat → AlertKind → Bool) (evs : List CryptoEvent) (i : Nat)
    (k : AlertKind) :
    flagOf (checkAndSendEventAlerts cfg now send evs).1 i k
      = (evs.find? (fun e => e.id == i)).map
          (fun e => flagW k (passEvent cfg now send e)) := by
  cases ha : cfg.alerts_enabled with
  | false =>
    simp only [checkAndSendEventAlerts, ha, Bool.not_false, if_true, flagOf,
      passEvent, Bool.false_and, Bool.false_eq_true, if_false]
  | true =>
    cases hd : cfg.alert_1day with
    | false =>
      cases hh : cfg.alert_1hour with
      | false =>
        simp only [checkAndSendEventAlerts, ha, hd, hh, Bool.not_true,
          Bool.false_eq_true, if_false, flagOf, passEvent, Bool.and_false,
          Bool.true_and]
      | true =>
        simp only [checkAndSendEventAlerts, ha, hd, hh, Bool.not_true,
          Bool.false_eq_true, if_false, if_true, passEvent, Bool.true_and]
        exact flagOf_map _ (step1hour_id now send) evs i k
    | true =>
      cases hh : cfg.alert_1hour with
      | false =>
        simp only [checkAndSendEventAlerts, ha, hd, hh, Bool.not_true,
          Bool.false_eq_true, if_false, if_true, passEvent, Bool.true_and]
        exact flagOf_map _ (step1day_id cfg now send) evs i k
      | true =>
        simp only [checkAndSendEventAlerts, ha, hd, hh, Bool.not_true,
          Bool.false_eq_true, if_false, if_true, passEvent, Bool.true_and,
          List.map_map]
        exact flagOf_map _
          (fun e => by
            simp [Function.comp, step1hour_id, step1day_id]) evs i k

theorem pass_ids (cfg : CalCfg) (now : PyDateTime)
    (send : Nat → AlertKind → Bool) (evs : List CryptoEvent) :
    ((checkAndSendEventAlerts cfg now send evs).1).map (fun e => e.id)
      = evs.map (fun e => e.id) := by
  cases ha : cfg.alerts_enabled with
  | false => simp [checkAndSendEventAlerts, ha]
  | true =>
    cases hd : cfg.alert_1day with
    | false =>
      cases hh : cfg.alert_1hour with
      | false => simp [checkAndSendEventAlerts, ha, hd, hh]
      | true =>
        simp [checkAndSendEventAlerts, ha, hd, hh, List.map_map,
          Function.comp_def, step1hour_id]
    | true =>
      cases hh : cfg.alert_1hour with
      | false =>
        simp [checkAndSendEventAlerts, ha, hd, hh, List.map_map,
          Function.comp_def, step1day_id]
      | true =>
        simp [checkAndSendEventAlerts, ha, hd, hh, List.map_map,
          Function.comp_def, step1hour_id, step1day_id]

theorem find_id_unique (evs : List CryptoEvent) (i : Nat)
    (hnd : (evs.map (fun e => e.id)).Nodup) (e0 : CryptoEvent)
    (hf : evs.find? (fun e => e.id == i) = some e0)
    (e : CryptoEvent) (he : e ∈ evs) (hei : e.id = i) : e = e0 := by
  induction evs with
  | nil => simp at he
  | cons a rest ih =>
    rw [List.map_cons, List.nodup_cons] at hnd
    by_cases hai : (a.id == i) = true
    · simp only [List.find?, hai] at hf
      rw [Option.some.injEq] at hf
      subst hf
      rcases List.mem_cons.mp he with rfl | hrest
      · rfl
      · exfalso
        apply hnd.1
        have : a.id = i := by simpa using hai
        rw [this, ← hei]
        exact List.mem_map.mpr ⟨e, hrest, rfl⟩
    · have hai2 : (a.id == i) = false := by simpa using hai
      simp only [List.find?, hai2] at hf
      rcases List.mem_cons.mp he with rfl | hrest
      · exact absurd (by simp [hei]) hai
      · exact ih hnd.2 hf hrest

theorem passEvent_mono (cfg : CalCfg) (now : PyDateTime)
    (send : Nat → AlertKind → Bool) (e : CryptoEvent) (k : AlertKind)
    (h : flagW k e = true) : flagW k (passEvent cfg now send e) = true := by
  unfold passEvent
  split
  · split
    · exact step1hour_mono _ _ _ _ (step1day_mono _ _ _ _ _ h)
    · exact step1hour_mono _ _ _ _ h
  · split
    · exact step1day_mono _ _ _ _ _ h
    · exact h

theorem passEvent_day (cfg : CalCfg) (now : PyDateTime)
    (send : Nat → AlertKind → Bool) (e0 : CryptoEvent) :
    flagW AlertKind.day1 (passEvent cfg now send e0)
      = flagW AlertKind.day1
          (if cfg.alerts_enabled && cfg.alert_1day then step1day cfg now send e0
           else e0) := by
  unfold passEvent
  split
  · rw [flagW_step1hour_day]
  · rfl

theorem step1day_fired (cfg : CalCfg) (now : PyDateTime)
    (send : Nat → AlertKind → Bool) (e0 : CryptoEvent)
    (h0 : flagW AlertKind.day1 e0 = false)
    (h1 : flagW AlertKind.day1 (step1day cfg now send e0) = true) :
    (sel1day now e0 && catOK cfg e0) = true := by
  unfold step1day at h1
  split at h1
  case isTrue hc => exact (Bool.and_eq_true_iff.mp hc).1
  case isFalse => exact absurd h1 (by simp [h0])

theorem step1hour_fired (now : PyDateTime) (send : Nat → AlertKind → Bool)
    (e1 : CryptoEvent) (h0 : flagW AlertKind.hour1 e1 = false)
    (h1 : flagW AlertKind.hour1 (step1hour now send e1) = true) :
    sel1hour now e1 = true := by
  unfold step1hour at h1
  split at h1
  case isTrue hc => exact (Bool.and_eq_true_iff.mp hc).1
  case isFalse => exact absurd h1 (by simp [h0])

theorem passEvent_day_fired (cfg : CalCfg) (now : PyDateTime)
    (send : Nat → AlertKind → Bool) (e0 : CryptoEvent)
    (h0 : flagW AlertKind.day1 e0 = false)
    (h1 : flagW AlertKind.day1 (passEvent cfg now send e0) = true) :
    (cfg.alerts_enabled && cfg.alert_1day) = true
    ∧ (sel1day now e0 && catOK cfg e0) = true := by
  rw [passEvent_day] at h1
  split at h1
  case isTrue hda => exact ⟨hda, step1day_fired cfg now send e0 h0 h1⟩
  case isFalse => exact absurd h1 (by simp [h0])

theorem passEvent_hour_fired (cfg : CalCfg) (now : PyDateTime)
    (send : Nat → AlertKind → Bool) (e0 : CryptoEvent)
    (h0 : flagW AlertKind.hour1 e0 = false)
    (h1 : flagW AlertKind.hour1 (passEvent cfg now send e0) = true) :
    (cfg.alerts_enabled && cfg.alert_1hour) = true
    ∧ sel1hour now e0 = true := by
  have he1flag : flagW AlertKind.hour1
      (if cfg.alerts_enabled && cfg.alert_1day then step1day cfg now send e0
       else e0) = false := by
    split
    · rw [flagW_step1day_hour]; exact h0
    · exact h0
  have hsel1 : sel1hour now
      (if cfg.alerts_enabled && cfg.alert_1day then step1day cfg now send e0
       else e0) = sel1hour now e0 := by
    split
    · exact sel1hour_step1day cfg now now send e0
    · rfl
  unfold passEvent at h1
  split at h1
  case isTrue hha =>
    refine ⟨hha, ?_⟩
    have hfired := step1hour_fired now send _ he1flag h1
    rw [hsel1] at hfired
    exact hfired
  case isFalse =>
    rw [he1flag] at h1
    exact (Bool.false_ne_true h1).elim

theorem pass_flag_mono (cfg : CalCfg) (now : PyDateTime)
    (send : Nat → AlertKind → Bool) (evs : List CryptoEvent) (i : Nat)
    (k : AlertKind) (hf : flagOf evs i k = some true) :
    flagOf (checkAndSendEventAlerts cfg now send evs).1 i k = some true := by
  unfold flagOf at hf
  cases hfind : evs.find? (fun e => e.id == i) with
  | none => rw [hfind] at hf; simp at hf
  | some e0 =>
    rw [hfind] at hf
    simp only [Option.map_some', Option.some.injEq] at hf
    rw [flagOf_pass, hfind]
    simp only [Option.map_some', Option.some.injEq]
    exact passEvent_mono cfg now send e0 k hf

theorem pass_gate (cfg : CalCfg) (now : PyDateTime)
    (send : Nat → AlertKind → Bool) (evs : List CryptoEvent) (i : Nat)
    (k : AlertKind) (hnd : (evs.map (fun e => e.id)).Nodup)
    (hf : flagOf evs i k = some true) :
    (i, k) ∉ (checkAndSendEventAlerts cfg now send evs).2 := by
  intro hmem
  unfold flagOf at hf
  cases hfind : evs.find? (fun e => e.id == i) with
  | none => rw [hfind] at hf; simp at hf
  | some e0 =>
    rw [hfind] at hf
    simp only [Option.map_some', Option.some.injEq] at hf
    cases k with
    | day1 =>
      obtain ⟨_, _, e, he, hei, hsel⟩ := (pass_calls_day cfg now send evs i).mp hmem
      rw [Bool.and_eq_true] at hsel
      have hflag : e.alert_1day_sent = false := by
        have hs := hsel.1
        unfold sel1day at hs
        rw [Bool.and_eq_true] at hs
        simpa using hs.2
      have heq : e = e0 := find_id_unique evs i hnd e0 hfind e he hei
      rw [heq] at hflag
      have : flagW AlertKind.day1 e0 = false := hflag
      rw [this] at hf
      exact Bool.false_ne_true hf
    | hour1 =>
      obtain ⟨_, _, e, he, hei, hsel⟩ := (pass_calls_hour cfg now send evs i).mp hmem
      have hflag : e.alert_1hour_sent = false := by
        unfold sel1hour at hsel
        rw [Bool.and_eq_true] at hsel
        simpa using hsel.2
      have heq : e = e0 := find_id_unique evs i hnd e0 hfind e he hei
      rw [heq] at hflag
      have : flagW AlertKind.hour1 e0 = false := hflag
      rw [this] at hf
      exact Bool.false_ne_true hf

theorem pass_transition (cfg : CalCfg) (now : PyDateTime)
    (send : Nat → AlertKind → Bool) (evs : List CryptoEvent) (i : Nat)
    (k : AlertKind) (h0 : flagOf evs i k = some false)
    (h1 : flagOf (checkAndSendEventAlerts cfg now send evs).1 i k = some true) :
    (i, k) ∈ (checkAndSendEventAlerts cfg now send evs).2 := by
  unfold flagOf at h0
  cases hfind : evs.find? (fun e => e.id == i) with
  | none => rw [hfind] at h0; simp at h0
  | some e0 =>
    rw [hfind] at h0
    simp only [Option.map_some', Option.some.injEq] at h0
    rw [flagOf_pass cfg now send evs i k, hfind] at h1
    simp only [Option.map_some', Option.some.injEq] at h1
    have he0 : e0 ∈ evs := List.mem_of_find?_eq_some hfind
    have hid : e0.id = i := by simpa using List.find?_some hfind
    cases k with
    | day1 =>
      obtain ⟨hda, hsel⟩ := passEvent_day_fired cfg now send e0 h0 h1
      rw [Bool.and_eq_true] at hda
      exact (pass_calls_day cfg now send evs i).mpr
        ⟨hda.1, hda.2, e0, he0, hid, hsel⟩
    | hour1 =>
      obtain ⟨hha, hsel⟩ := passEvent_hour_fired cfg now send e0 h0 h1
      rw [Bool.and_eq_true] at hha
      exact (pass_calls_hour cfg now send evs i).mpr
        ⟨hha.1, hha.2, e0, he0, hid, hsel⟩

theorem passFold_acc (ps : List PassIn) :
    ∀ (x : List CryptoEvent) (c : List (Nat × AlertKind)),
      ps.foldl passFold (x, c)
        = ((ps.foldl passFold (x, [])).1, c ++ (ps.foldl passFold (x, [])).2) := by
  induction ps with
  | nil => intro x c; simp
  | cons q qs ih =>
    intro x c
    simp only [List.foldl_cons]
    have h1 : passFold (x, c) q
        = ((checkAndSendEventAlerts q.cfg q.now q.send x).1,
           c ++ (checkAndSendEventAlerts q.cfg q.now q.send x).2) := rfl
    have h2 : passFold (x, []) q
        = ((checkAndSendEventAlerts q.cfg q.now q.send x).1,
           (checkAndSendEventAlerts q.cfg q.now q.send x).2) := by
      simp [passFold]
    rw [h1, h2,
      ih ((checkAndSendEventAlerts q.cfg q.now q.send x).1)
        (c ++ (checkAndSendEventAlerts q.cfg q.now q.send x).2),
      ih ((checkAndSendEventAlerts q.cfg q.now q.send x).1)
        ((checkAndSendEventAlerts q.cfg q.now q.send x).2)]
    simp [List.append_assoc]

theorem runAlertPasses_cons (p : PassIn) (ps : List PassIn)
    (evs : List CryptoEvent) :
    runAlertPasses (p :: ps) evs
      = ((runAlertPasses ps (checkAndSendEventAlerts p.cfg p.now p.send evs).1).1,
         (checkAndSendEventAlerts p.cfg p.now p.send evs).2
           ++ (runAlertPasses ps
                (checkAndSendEventAlerts p.cfg p.now p.send evs).1).2) := by
  unfold runAlertPasses
  simp only [List.foldl_cons]
  have h1 : passFold (evs, []) p
      = ((checkAndSendEventAlerts p.cfg p.now p.send evs).1,
         (checkAndSendEventAlerts p.cfg p.now p.send evs).2) := by
    simp [passFold]
  rw [h1, passFold_acc]

/-! ## Claim C2: each alert flag transitions false→true at most once and
gates any further send -/

/-- C2: for every event id `i` and window `k`, over any sequence of passes of
the alert checker: once the flag is true it stays true and no further
`send_event_alert` call for `(i, k)` is ever made; and in any single pass the
flag can move from false to true only when that pass actually sends the
`(i, k)` alert.  Together: the flag transitions false→true at most once, the
transition coincides with the send, and a recorded flag suppresses every
later send. -/
theorem alert_flag_transitions_once (ps : List PassIn) (evs : List CryptoEvent)
    (i : Nat) (k : AlertKind)
    (hnd : (evs.map (fun e => e.id)).Nodup) :
    (flagOf evs i k = some true →
      flagOf (runAlertPasses ps evs).1 i k = some true
      ∧ (i, k) ∉ (runAlertPasses ps evs).2)
    ∧ (∀ p : PassIn, flagOf evs i k = some false →
        flagOf (checkAndSendEventAlerts p.cfg p.now p.send evs).1 i k
          = some true →
        (i, k) ∈ (checkAndSendEventAlerts p.cfg p.now p.send evs).2) := by
  constructor
  · induction ps generalizing evs with
    | nil =>
      intro hf
      exact ⟨hf, by simp [runAlertPasses]⟩
    | cons p ps ih =>
      intro hf
      rw [runAlertPasses_cons]
      have hmono := pass_flag_mono p.cfg p.now p.send evs i k hf
      have hgate := pass_gate p.cfg p.now p.send evs i k hnd hf
      have hnd2 : (((checkAndSendEventAlerts p.cfg p.now p.send evs).1).map
          (fun e => e.id)).Nodup := by
        rw [pass_ids]
        exact hnd
      obtain ⟨ih1, ih2⟩ := ih _ hnd2 hmono
      refine ⟨ih1, ?_⟩
      intro hmem
      rcases List.mem_append.mp hmem with h | h
      · exact hgate h
      · exact ih2 h
  · intro p hf0 hf1
    exact pass_transition p.cfg p.now p.send evs i k hf0 hf1

/-- Witness for C2: an event whose 1-day flag is already true is not alerted
again by a pass with everything enabled and every send succeeding. -/
theorem alert_flag_transitions_once_witness :
    (1, AlertKind.day1) ∉ (runAlertPasses
        [PassIn.mk (CalCfg.mk true true true true true true)
          (PyDateTime.mk 100 0 0 0 0) (fun _ _ => true)]
        [CryptoEvent.mk 1 [] (PyDateTime.mk 101 0 0 0 0) none
          "conference".data none none 5 [] none false true false]).2 :=
  ((alert_flag_transitions_once
      [PassIn.mk (CalCfg.mk true true true true true true)
        (PyDateTime.mk 100 0 0 0 0) (fun _ _ => true)]
      [CryptoEvent.mk 1 [] (PyDateTime.mk 101 0 0 0 0) none
        "conference".data none none 5 [] none false true false]
      1 AlertKind.day1 (by decide)).1 (by decide)).2

/-! ## Claim C3: the alert time windows -/

/-- C3 counterexample: `tomorrow.replace(hour=0, minute=0)` keeps the seconds
of `now`, so with `now` at 12:00:30 an event at exactly 00:00:00 of the next
calendar day — inside the claim's "00:00 through 23:59 of now + 1 day"
window, with `alert_1day_sent` false and every toggle on — is *not* alerted
by the pass: the query's lower bound is 00:00:30. -/
theorem midnight_event_not_selected :
    (CryptoEvent.mk 1 [] (PyDateTime.mk 101 0 0 0 0) none "conference".data
        none none 5 [] none false false false).date_event
      = PyDateTime.mk ((PyDateTime.mk 100 12 0 30 0).day + 1) 0 0 0 0
    ∧ (CryptoEvent.mk 1 [] (PyDateTime.mk 101 0 0 0 0) none "conference".data
        none none 5 [] none false false false).alert_1day_sent = false
    ∧ (1, AlertKind.day1) ∉ (checkAndSendEventAlerts
        (CalCfg.mk true true true true true true) (PyDateTime.mk 100 12 0 30 0)
        (fun _ _ => true)
        [CryptoEvent.mk 1 [] (PyDateTime.mk 101 0 0 0 0) none "conference".data
          none none 5 [] none false false false]).2 := by
  decide

/-- C3 amended: one pass with all alert toggles on sends the 1-day alert for
exactly the events with `alert_1day_sent` false whose `date_event` lies
between `tomorrow.replace(hour=0, minute=0)` and
`tomorrow.replace(hour=23, minute=59)` — both bounds inheriting the seconds
and microseconds of `now` — and which pass the category filter; and the
1-hour alert for exactly the events with `alert_1hour_sent` false whose
`date_event` lies in the inclusive interval `[now, now + 1 hour]`.  No event
outside these windows is alerted by that pass. -/
theorem alert_pass_window_characterization (cfg : CalCfg) (now : PyDateTime)
    (send : Nat → AlertKind → Bool) (evs : List CryptoEvent) (i : Nat)
    (ha : cfg.alerts_enabled = true) (hd : cfg.alert_1day = true)
    (hh : cfg.alert_1hour = true) :
    ((i, AlertKind.day1) ∈ (checkAndSendEventAlerts cfg now send evs).2
      ↔ ∃ e ∈ evs, e.id = i ∧ e.alert_1day_sent = false
          ∧ ((now.addDays 1).replaceHM 0 0).le e.date_event = true
          ∧ e.date_event.le ((now.addDays 1).replaceHM 23 59) = true
          ∧ catOK cfg e = true)
    ∧ ((i, AlertKind.hour1) ∈ (checkAndSendEventAlerts cfg now send evs).2
      ↔ ∃ e ∈ evs, e.id = i ∧ e.alert_1hour_sent = false
          ∧ now.le e.date_event = true
          ∧ e.date_event.le (now.addHours 1) = true) := by
  constructor
  · rw [pass_calls_day]
    constructor
    · rintro ⟨_, _, e, he, hid, hsel⟩
      rw [Bool.and_eq_true] at hsel
      obtain ⟨hs, hcat⟩ := hsel
      unfold sel1day at hs
      rw [Bool.and_eq_true, Bool.and_eq_true] at hs
      obtain ⟨⟨hlo, hhi2⟩, hflag⟩ := hs
      refine ⟨e, he, hid, by simpa using hflag, ?_, ?_, hcat⟩
      · simpa [lower1day] using hlo
      · simpa [upper1day] using hhi2
    · rintro ⟨e, he, hid, hflag, hlo, hhi2, hcat⟩
      refine ⟨ha, hd, e, he, hid, ?_⟩
      simp [sel1day, lower1day, upper1day, hlo, hhi2, hflag, hcat]
  · rw [pass_calls_hour]
    constructor
    · rintro ⟨_, _, e, he, hid, hsel⟩
      unfold sel1hour at hsel
      rw [Bool.and_eq_true, Bool.and_eq_true] at hsel
      obtain ⟨⟨hlo, hhi2⟩, hflag⟩ := hsel
      exact ⟨e, he, hid, by simpa using hflag, hlo, hhi2⟩
    · rintro ⟨e, he, hid, hflag, hlo, hhi2⟩
      refine ⟨ha, hh, e, he, hid, ?_⟩
      simp [sel1hour, hlo, hhi2, hflag]

/-- Witness for C3 amended: an event inside the code's 1-day window (same
seconds as `now`) is alerted. -/
theorem alert_pass_window_characterization_witness :
    (1, AlertKind.day1) ∈ (checkAndSendEventAlerts
        (CalCfg.mk true true true true true true) (PyDateTime.mk 100 12 0 30 0)
        (fun _ _ => true)
        [CryptoEvent.mk 1 [] (PyDateTime.mk 101 15 0 30 0) none
          "conference".data none none 5 [] none false false false]).2 :=
  (alert_pass_window_characterization
      (CalCfg.mk true true true true true true) (PyDateTime.mk 100 12 0 30 0)
      (fun _ _ => true)
      [CryptoEvent.mk 1 [] (PyDateTime.mk 101 15 0 30 0) none
        "conference".data none none 5 [] none false false false]
      1 rfl rfl rfl).1.mpr (by decide)

/-! ## Claim C8: 1-hour alerts ignore the category toggles -/

/-- C8: for any event in the 1-hour window with `alert_1hour_sent` false, the
1-hour alert is sent whenever `alerts_enabled` and `alert_1hour` are on —
whatever the event's category and whatever the values of
`alert_conferences`, `alert_speeches` and `alert_launches` (which gate only
the 1-day loop). -/
theorem hour_alert_ignores_category_toggles (cfg : CalCfg) (now : PyDateTime)
    (send : Nat → AlertKind → Bool) (evs : List CryptoEvent) (e : CryptoEvent)
    (ha : cfg.alerts_enabled = true) (hh : cfg.alert_1hour = true)
    (hmem : e ∈ evs) (hflag : e.alert_1hour_sent = false)
    (hlo : now.le e.date_event = true)
    (hhi : e.date_event.le (now.addHours 1) = true) :
    (e.id, AlertKind.hour1) ∈ (checkAndSendEventAlerts cfg now send evs).2 := by
  refine (pass_calls_hour cfg now send evs e.id).mpr ⟨ha, hh, e, hmem, rfl, ?_⟩
  simp [sel1hour, hlo, hhi, hflag]

/-- Witness for C8: a conference event gets its 1-hour alert even with the
conference toggle (and the 1-day alert) switched off. -/
theorem hour_alert_ignores_category_toggles_witness :
    ((1 : Nat), AlertKind.hour1) ∈ (checkAndSendEventAlerts
        (CalCfg.mk true false true false false false) (PyDateTime.mk 50 10 0 0 0)
        (fun _ _ => true)
        [CryptoEvent.mk 1 [] (PyDateTime.mk 50 10 30 0 0) none
          "conference".data none none 5 [] none false false false]).2 :=
  hour_alert_ignores_category_toggles
    (CalCfg.mk true false true false false false) (PyDateTime.mk 50 10 0 0 0)
    (fun _ _ => true)
    [CryptoEvent.mk 1 [] (PyDateTime.mk 50 10 30 0 0) none
      "conference".data none none 5 [] none false false false]
    (CryptoEvent.mk 1 [] (PyDateTime.mk 50 10 30 0 0) none
      "conference".data none none 5 [] none false false false)
    rfl rfl (by decide) rfl (by decide) (by decide)

/-! ## Claim C9: `fetch_and_save_events` is idempotent on the pre-loaded
events -/

/-- A pre-loaded entry is "settled" in a table when its first matching row
exists and already has a non-falsy `source_url` — the step for that entry
then changes nothing. -/
def settled (pd : List Char → PyDateTime) (db : List CryptoEvent)
    (d : EventData) : Bool :=
  match db.find? (matchesPre pd d) with
  | some e => !optFalsy e.source_url
  | none => false

theorem matchesPre_set_url (pd : List Char → PyDateTime) (d : EventData)
    (e : CryptoEvent) (u : Option (List Char)) :
    matchesPre pd d { e with source_url := u } = matchesPre pd d e := rfl

theorem settled_updFirstUrl_self (pd : List Char → PyDateTime) (d : EventData)
    (hurl : optFalsy d.url = false) :
    ∀ db : List CryptoEvent, db.any (matchesPre pd d) = true →
      settled pd (updFirstUrl pd d db) d = true := by
  intro db
  induction db with
  | nil => intro h; simp at h
  | cons e rest ih =>
    intro hany
    by_cases hm : matchesPre pd d e = true
    · by_cases hf : optFalsy e.source_url = true
      · have hcond : (optFalsy e.source_url && !optFalsy d.url) = true := by
          simp [hf, hurl]
        have hm2 : matchesPre pd d { e with source_url := d.url } = true := by
          rw [matchesPre_set_url]; exact hm
        simp only [updFirstUrl, hm, if_true, hcond, settled, List.find?, hm2]
        simp [optFalsy] at hurl ⊢
        cases hu : d.url with
        | none => rw [hu] at hurl; simp [optFalsy] at hurl
        | some u =>
          rw [hu] at hurl
          simp [optFalsy] at hurl ⊢
          exact hurl
      · have hf2 : optFalsy e.source_url = false := by
          simpa using hf
        have hcond : (optFalsy e.source_url && !optFalsy d.url) = false := by
          simp [hf2]
        simp only [updFirstUrl, hm, if_true, hcond, Bool.false_eq_true,
          if_false, settled, List.find?]
        simp [hf2]
    · have hm2 : matchesPre pd d e = false := by simpa using hm
      have hrest : rest.any (matchesPre pd d) = true := by
        simpa [List.any_cons, hm2] using hany
      simp only [updFirstUrl, hm2, Bool.false_eq_true, if_false, settled,
        List.find?]
      have := ih hrest
      unfold settled at this
      simpa [hm2] using this

theorem settled_insert_self (pd : List Char → PyDateTime) (d : EventData)
    (hurl : optFalsy d.url = false) (db : List CryptoEvent)
    (hnone : db.any (matchesPre pd d) = false) :
    settled pd (db ++ [mkPreEvent pd d]) d = true := by
  unfold settled
  rw [List.find?_append]
  have hfnone : db.find? (matchesPre pd d) = none := by
    rw [List.find?_eq_none]
    intro e he
    exact List.any_eq_false.mp hnone e he
  rw [hfnone]
  have hm : matchesPre pd d (mkPreEvent pd d) = true := by
    simp [matchesPre, mkPreEvent]
  simp only [Option.none_or, List.find?, hm]
  simpa [mkPreEvent] using hurl

theorem settled_updFirstUrl_other (pd : List Char → PyDateTime)
    (d2 d : EventData) :
    ∀ db : List CryptoEvent, settled pd db d = true →
      settled pd (updFirstUrl pd d2 db) d = true := by
  intro db
  induction db with
  | nil => intro h; simp [settled, List.find?] at h
  | cons e rest ih =>
    intro h
    by_cases hm : matchesPre pd d e = true
    · have hurlE : (!optFalsy e.source_url) = true := by
        unfold settled at h
        simp only [List.find?, hm] at h
        exact h
      have hurlF : optFalsy e.source_url = false := by
        cases hob : optFalsy e.source_url
        · rfl
        · rw [hob] at hurlE
          simp at hurlE
      by_cases hm2 : matchesPre pd d2 e = true
      · have hcond : (optFalsy e.source_url && !optFalsy d2.url) = false := by
          simp [hurlF]
        simp only [updFirstUrl, hm2, if_true, hcond, Bool.false_eq_true,
          if_false, settled, List.find?, hm]
        exact hurlE
      · have hm2f : matchesPre pd d2 e = false := by simpa using hm2
        simp only [updFirstUrl, hm2f, Bool.false_eq_true, if_false, settled,
          List.find?, hm]
        exact hurlE
    · have hmf : matchesPre pd d e = false := by simpa using hm
      have hrest : settled pd rest d = true := by
        unfold settled at h ⊢
        simpa [List.find?, hmf] using h
      by_cases hm2 : matchesPre pd d2 e = true
      · by_cases hc : (optFalsy e.source_url && !optFalsy d2.url) = true
        · have hmf2 : matchesPre pd d { e with source_url := d2.url } = false := by
            rw [matchesPre_set_url]; exact hmf
          simp only [updFirstUrl, hm2, if_true, hc, settled, List.find?, hmf2]
          unfold settled at hrest
          exact hrest
        · have hc2 : (optFalsy e.source_url && !optFalsy d2.url) = false := by
            simpa using hc
          simp only [updFirstUrl, hm2, if_true, hc2, Bool.false_eq_true,
            if_false, settled, List.find?, hmf]
          unfold settled at hrest
          exact hrest
      · have hm2f : matchesPre pd d2 e = false := by simpa using hm2
        simp only [updFirstUrl, hm2f, Bool.false_eq_true, if_false, settled,
          List.find?, hmf]
        have := ih hrest
        unfold settled at this
        exact this

theorem settled_append (pd : List Char → PyDateTime) (d : EventData)
    (db l : List CryptoEvent) (h : settled pd db d = true) :
    settled pd (db ++ l) d = true := by
  unfold settled at h ⊢
  rw [List.find?_append]
  cases hf : db.find? (matchesPre pd d) with
  | none => rw [hf] at h; simp at h
  | some e =>
    rw [hf] at h
    simpa using h

theorem settled_stepPre (pd : List Char → PyDateTime)
    (st : List CryptoEvent × Nat) (d2 d : EventData)
    (h : settled pd st.1 d = true) :
    settled pd (stepPre pd st d2).1 d = true := by
  unfold stepPre
  split
  · exact settled_updFirstUrl_other pd d2 d st.1 h
  · exact settled_append pd d st.1 _ h

theorem settled_stepPre_self (pd : List Char → PyDateTime)
    (st : List CryptoEvent × Nat) (d : EventData)
    (hurl : optFalsy d.url = false) :
    settled pd (stepPre pd st d).1 d = true := by
  unfold stepPre
  split
  case isTrue hany => exact settled_updFirstUrl_self pd d hurl st.1 hany
  case isFalse hany =>
    exact settled_insert_self pd d hurl st.1 (by simpa using hany)

theorem settled_fold (pd : List Char → PyDateTime) (l : List EventData) :
    ∀ (st : List CryptoEvent × Nat) (d : EventData),
      settled pd st.1 d = true →
      settled pd ((l.foldl (stepPre pd) st).1) d = true := by
  induction l with
  | nil => intro st d h; exact h
  | cons d0 rest ih =>
    intro st d h
    simp only [List.foldl_cons]
    exact ih _ d (settled_stepPre pd st d0 d h)

theorem settled_after_fold (pd : List Char → PyDateTime) (l : List EventData)
    (hl : ∀ d2 ∈ l, optFalsy d2.url = false) :
    ∀ (st : List CryptoEvent × Nat) (d : EventData), d ∈ l →
      settled pd ((l.foldl (stepPre pd) st).1) d = true := by
  induction l with
  | nil => intro st d hd; simp at hd
  | cons d0 rest ih =>
    intro st d hd
    simp only [List.foldl_cons]
    rcases List.mem_cons.mp hd with rfl | hdrest
    · exact settled_fold pd rest _ d
        (settled_stepPre_self pd st d (hl d (List.mem_cons_self ..)))
    · exact ih (fun x hx => hl x (List.mem_cons_of_mem _ hx)) _ d hdrest

theorem updFirstUrl_id (pd : List Char → PyDateTime) (d : EventData) :
    ∀ db : List CryptoEvent, settled pd db d = true →
      updFirstUrl pd d db = db := by
  intro db
  induction db with
  | nil => intro h; rfl
  | cons e rest ih =>
    intro h
    by_cases hm : matchesPre pd d e = true
    · have hurlE : optFalsy e.source_url = false := by
        unfold settled at h
        simp only [List.find?, hm] at h
        simpa using h
      have hcond : (optFalsy e.source_url && !optFalsy d.url) = false := by
        simp [hurlE]
      simp [updFirstUrl, hm, hcond]
    · have hmf : matchesPre pd d e = false := by simpa using hm
      have hrest : settled pd rest d = true := by
        unfold settled at h ⊢
        simpa [List.find?, hmf] using h
      simp [updFirstUrl, hmf, ih hrest]

theorem stepPre_settled_id (pd : List Char → PyDateTime)
    (st : List CryptoEvent × Nat) (d : EventData)
    (h : settled pd st.1 d = true) : stepPre pd st d = st := by
  have hany : st.1.any (matchesPre pd d) = true := by
    unfold settled at h
    cases hf : st.1.find? (matchesPre pd d) with
    | none => rw [hf] at h; simp at h
    | some e =>
      exact List.any_eq_true.mpr
        ⟨e, List.mem_of_find?_eq_some hf, List.find?_some hf⟩
  unfold stepPre
  rw [if_pos hany, updFirstUrl_id pd d st.1 h]

theorem fold_settled_id (pd : List Char → PyDateTime) (l : List EventData) :
    ∀ st : List CryptoEvent × Nat, (∀ d ∈ l, settled pd st.1 d = true) →
      l.foldl (stepPre pd) st = st := by
  induction l with
  | nil => intro st _; rfl
  | cons d0 rest ih =>
    intro st hall
    simp only [List.foldl_cons]
    rw [stepPre_settled_id pd st d0 (hall d0 (List.mem_cons_self ..))]
    exact ih st (fun d hd => hall d (List.mem_cons_of_mem _ hd))

theorem fold_settled_id_pair (pd : List Char → PyDateTime)
    (l : List EventData) (db : List CryptoEvent) (n : Nat)
    (hall : ∀ d ∈ l, settled pd db d = true) :
    l.foldl (stepPre pd) (db, n) = (db, n) :=
  fold_settled_id pd l (db, n) (fun d hd => hall d hd)

/-- C9: with scraping yielding no events, `fetch_and_save_events` is
idempotent: a second consecutive call matches every pre-loaded 2026 event by
title and date, updates no URL (the first call left each first matching row
with a URL), inserts no row and returns 0 newly saved events, leaving the
event table unchanged. -/
theorem fetch_and_save_events_idempotent (pd : List Char → PyDateTime)
    (pd2 : List Char → Option PyDateTime) (now : PyDateTime)
    (db0 : List CryptoEvent) :
    fetch_and_save_events pd pd2 now []
        (fetch_and_save_events pd pd2 now [] db0).1
      = ((fetch_and_save_events pd pd2 now [] db0).1, 0) := by
  have hurl : ∀ d ∈ CRYPTO_EVENTS_2026, optFalsy d.url = false := by decide
  have hfe : ∀ db : List CryptoEvent, fetch_and_save_events pd pd2 now [] db
      = CRYPTO_EVENTS_2026.foldl (stepPre pd) (db, 0) := by
    intro db
    simp only [fetch_and_save_events, List.foldl_nil]
  rw [hfe, hfe]
  exact fold_settled_id_pair pd CRYPTO_EVENTS_2026
    ((CRYPTO_EVENTS_2026.foldl (stepPre pd) (db0, 0)).1) 0
    (fun d hd => settled_after_fold pd CRYPTO_EVENTS_2026 hurl (db0, 0) d hd)

/-- Witness for C7: a cycle whose only enabled source always raises still
completes normally, logs that source, and sleeps the configured interval. -/
theorem news_cycle_survives_failures_witness :
    ∃ log, runNewsCycle (NewsConfig.mk [("coindesk".data, true)] [] 300)
        (fun _ => Except.error "boom".data) = Except.ok (log, 300)
      ∧ log.map Prod.fst = ["coindesk".data] := by
  obtain ⟨log, h1, h2, _⟩ := news_cycle_survives_failures
    (NewsConfig.mk [("coindesk".data, true)] [] 300)
    (fun _ => Except.error "boom".data)
  refine ⟨log, h1, ?_⟩
  rw [h2]
  decide
